import Mathlib

/-!
# Text circle packing: the packing engine of `src/main.js`

A shallow embedding of the classes `Circle` and `CirclePacking` and the
properties of the packing, growth and collision algorithm.

Numbers.  A JavaScript number is modelled by `JSNum`: a rational, the value
`NaN`, or `undefined` (what reading past the end of an array gives).  Every
arithmetic operation turns `undefined` into `NaN` and propagates `NaN`; every
comparison with `NaN` or `undefined` is false.  These are the rules of
JavaScript's `ToNumber`, `-`, `+`, `*`, `/`, `Math.abs`, `<`, `<=` and `>`.

Rounding.  JavaScript numbers are IEEE 754 doubles: `+`, `-`, `*` and `/` return
the exact result rounded to a double.  The operations of `JSNum` therefore round
their exact result with `Rounding.rnd`, a function given by an instance of the
class `Rounding`.  A definition or theorem with the argument `[Rounding]` is
about every rounding function, the one of the doubles included.  A theorem
without that argument is about the instance `Rounding.exact`, which does not
round: it is used where a concrete input is evaluated and every intermediate
value is an integer or a dyadic number, and for statements made in exact
arithmetic.  `Rounding.binary64` rounds to the nearest double, ties to even.
There are no infinities and no signed zero.

Randomness.  `Math.random()` is modelled by a stream `rand : Nat → ℚ` handed
to each call of `addNewCircles`: `rand k` is the value of the `k`-th call of
`Math.random()` made during that call.

Host functions.  `Math.sqrt` is a function `sqrt : ℚ → ℚ` given to
`updateMouseEvents`; the canvas is represented by the byte array `data` that
`getImageData` returns to `createTextPixels`.
-/

namespace TextCirclePacking

/-! ## Numbers -/

/-- The rounding of the exact result of an arithmetic operation to a number that
the machine represents. -/
class Rounding where
  rnd : ℚ → ℚ

/-- A JavaScript value of the kinds that reach the arithmetic of the engine. -/
inductive JSNum where
  | num (q : ℚ)
  | nan
  | undefined
  deriving DecidableEq, Repr

namespace JSNum

instance : Inhabited JSNum := ⟨undefined⟩

instance : OfNat JSNum n := ⟨num n⟩

/-- The JavaScript conversion `ToNumber`: `undefined` becomes `NaN`, which is
`none` here. -/
def toNum : JSNum → Option ℚ
  | num q => some q
  | nan => none
  | undefined => none

/-- JavaScript `a + b` on numbers. -/
def add [Rounding] (a b : JSNum) : JSNum :=
  match a.toNum, b.toNum with
  | some p, some q => num (Rounding.rnd (p + q))
  | _, _ => nan

/-- JavaScript `a - b`. -/
def sub [Rounding] (a b : JSNum) : JSNum :=
  match a.toNum, b.toNum with
  | some p, some q => num (Rounding.rnd (p - q))
  | _, _ => nan

/-- JavaScript `a * b`. -/
def mul [Rounding] (a b : JSNum) : JSNum :=
  match a.toNum, b.toNum with
  | some p, some q => num (Rounding.rnd (p * q))
  | _, _ => nan

/-- JavaScript `a / b`.  `0 / 0` is `NaN`.  A non-zero value over zero is an
infinity in JavaScript, which `JSNum` does not represent; it is `NaN` here, and
no statement below depends on the value in that case. -/
def div [Rounding] (a b : JSNum) : JSNum :=
  match a.toNum, b.toNum with
  | some p, some q => if q = 0 then nan else num (Rounding.rnd (p / q))
  | _, _ => nan

/-- JavaScript `Math.abs(a)`, which is exact. -/
def abs (a : JSNum) : JSNum :=
  match a.toNum with
  | some p => num |p|
  | none => nan

/-- JavaScript `a < b`: false as soon as one side is `NaN` or `undefined`. -/
def lt (a b : JSNum) : Bool :=
  match a.toNum, b.toNum with
  | some p, some q => decide (p < q)
  | _, _ => false

/-- JavaScript `a <= b`. -/
def le (a b : JSNum) : Bool :=
  match a.toNum, b.toNum with
  | some p, some q => decide (p ≤ q)
  | _, _ => false

/-- JavaScript `a > b`. -/
def gt (a b : JSNum) : Bool := lt b a

/-- JavaScript truthiness of a number: `undefined`, `NaN` and `0` are falsy. -/
def truthy : JSNum → Bool
  | num q => decide (q ≠ 0)
  | nan => false
  | undefined => false

/-- JavaScript `a || b` on numbers. -/
def orElse (a b : JSNum) : JSNum := if a.truthy then a else b

/-- A default parameter value `p = d`: the default is taken exactly when the
argument is `undefined`. -/
def orDefault (a d : JSNum) : JSNum :=
  match a with
  | undefined => d
  | v => v

end JSNum

/-! ## Circle -/

/-- The fields of the class `Circle`. -/
structure Circle where
  x : JSNum
  y : JSNum
  curr_x : JSNum
  curr_y : JSNum
  ease : JSNum
  radius : JSNum
  growing : Bool
  deriving DecidableEq, Repr

namespace Circle

/-- The static field `Circle.startRadius`. -/
def startRadius : JSNum := 1

/-- The static field `Circle.growSpeed`. -/
def growSpeed : JSNum := 25

/-- The constructor `new Circle(x, y, startRadius)`; an argument that is left
out is `undefined`. -/
def new (x y startRadius : JSNum) : Circle :=
  { x := x
    y := y
    curr_x := x
    curr_y := y
    ease := 20
    radius := startRadius.orElse Circle.startRadius
    growing := true }

/-- The method `grow(deltatime)`. -/
def grow [Rounding] (c : Circle) (deltatime : JSNum) : Circle :=
  if c.growing then
    { c with radius := c.radius.add (deltatime.mul growSpeed) }
  else c

/-- The method `update(deltatime)`. -/
def update [Rounding] (c : Circle) (deltatime : JSNum) : Circle :=
  let c := c.grow deltatime
  let c := { c with curr_x := c.curr_x.add ((c.x.sub c.curr_x).div c.ease) }
  { c with curr_y := c.curr_y.add ((c.y.sub c.curr_y).div c.ease) }

/-- The method `isOutsideWindow(width, height, padding)`. -/
def isOutsideWindow [Rounding] (c : Circle) (width height padding : JSNum) : Bool :=
  ((c.x.sub c.radius).sub padding).lt 0 || ((c.x.add c.radius).add padding).gt width ||
  ((c.y.sub c.radius).sub padding).lt 0 || ((c.y.add c.radius).add padding).gt height

/-- The method `stopGrowing()`. -/
def stopGrowing (c : Circle) : Circle := { c with growing := false }

end Circle

/-! ## The overlap test -/

/-- The test in the body of the loop of `isCircleOverlapping`, for one circle:
`d <= (radius + circle.radius) * (radius + circle.radius)`. -/
def overlapsWith [Rounding] (padding x y radius : JSNum) (circle : Circle) : Bool :=
  let dx := ((circle.x.sub x).abs).sub padding
  let dy := ((circle.y.sub y).abs).sub padding
  let d := (dx.mul dx).add (dy.mul dy)
  d.le ((radius.add circle.radius).mul (radius.add circle.radius))

/-- The loop of `isCircleOverlapping` over `this.circles`, with its early
return. -/
def isCircleOverlappingLoop [Rounding] (padding x y radius : JSNum) : List Circle → Bool
  | [] => false
  | c :: rest =>
    if overlapsWith padding x y radius c then true
    else isCircleOverlappingLoop padding x y radius rest

/-- The method `isCircleOverlapping(x, y, radius=Circle.startRadius)` of an engine
whose fields are `circles` and `padding`; an argument that is left out is
`undefined`. -/
def isCircleOverlapping [Rounding] (circles : List Circle) (padding x y radius : JSNum) : Bool :=
  isCircleOverlappingLoop padding x y (radius.orDefault Circle.startRadius) circles

/-! ## The engine -/

/-- The fields of the class `CirclePacking` that the packing algorithm reads or
writes.  `textPixels` is the flat array `[x0, y0, x1, y1, ...]` of candidate
points; `maxCircles` and `maxAttempts` are non-negative integers. -/
structure CirclePacking where
  textPixels : List ℚ
  circles : List Circle
  maxCircles : ℕ
  finished : Bool
  maxAttempts : ℕ
  padding : JSNum
  windowPadding : JSNum
  width : JSNum
  height : JSNum
  blobRadius : JSNum
  forceFactor : JSNum
  mouse_x : JSNum
  mouse_y : JSNum
  clicked : Bool
  deriving DecidableEq, Repr

/-- The array read `textPixels[index]`: `undefined` outside the array. -/
def pixelAt (textPixels : List ℚ) (index : ℤ) : JSNum :=
  if 0 ≤ index then
    match textPixels[index.toNat]? with
    | some v => JSNum.num v
    | none => JSNum.undefined
  else JSNum.undefined

namespace CirclePacking

/-- The method `createCircle()`, where `random` is the value that `Math.random()`
returns; `none` is `null`. -/
def createCircle [Rounding] (s : CirclePacking) (random : ℚ) : Option Circle :=
  let index : ℤ := ⌊Rounding.rnd (Rounding.rnd (random * (s.textPixels.length : ℚ)) / 2)⌋ * 2
  let x := pixelAt s.textPixels index
  let y := pixelAt s.textPixels (index + 1)
  if isCircleOverlapping s.circles s.padding x y JSNum.undefined then none
  else some (Circle.new x y JSNum.undefined)

/-- The `while` loop of `addNewCircles`.  The first argument is `100 - i`, the
number of iterations left before the test `i++ < 100` fails; `i` also counts
the calls of `Math.random()` made so far.  The result is the engine and the
final value of `attempts`. -/
def addNewCirclesLoop [Rounding] (rand : ℕ → ℚ) :
    ℕ → ℕ → ℕ → CirclePacking → CirclePacking × ℕ
  | 0, _, attempts, s => (s, attempts)
  | n + 1, i, attempts, s =>
    if attempts < s.maxAttempts then
      match s.createCircle (rand i) with
      | none => addNewCirclesLoop rand n (i + 1) (attempts + 1) s
      | some newCircle =>
        addNewCirclesLoop rand n (i + 1) 0 { s with circles := s.circles ++ [newCircle] }
    else (s, attempts)

/-- The method `addNewCircles()`. -/
def addNewCircles [Rounding] (s : CirclePacking) (rand : ℕ → ℚ) : CirclePacking :=
  if !s.finished && s.circles.length < s.maxCircles then
    let r := addNewCirclesLoop rand 100 0 0 s
    if r.1.circles.length ≥ r.1.maxCircles || r.2 ≥ r.1.maxAttempts then
      { r.1 with finished := true }
    else r.1
  else s

/-- The test of `handleCircleCollisions` on the pair of circles `a`, `b`:
`d < (r1 + r2) * (r1 + r2)`. -/
def collides [Rounding] (padding : JSNum) (a b : Circle) : Bool :=
  let dx := ((a.x.sub b.x).abs).sub padding
  let dy := ((a.y.sub b.y).abs).sub padding
  let d := (dx.mul dx).add (dy.mul dy)
  d.lt ((a.radius.add b.radius).mul (a.radius.add b.radius))

/-- The body of the inner loop of `handleCircleCollisions` for the indices
`i`, `j`.  Both are inside the array whenever the loops reach the body. -/
def collisionStep [Rounding] (padding : JSNum) (i : ℕ) (circles : List Circle) (j : ℕ) : List Circle :=
  match circles[i]?, circles[j]? with
  | some a, some b =>
    if collides padding a b then
      List.modify Circle.stopGrowing i (List.modify Circle.stopGrowing j circles)
    else circles
  | _, _ => circles

/-- The inner loop `for(let j = i + 1; j < this.circles.length; j++)`; the body
never changes the length of the array. -/
def collisionInner [Rounding] (padding : JSNum) (circles : List Circle) (i : ℕ) : List Circle :=
  (List.range' (i + 1) (circles.length - (i + 1))).foldl (collisionStep padding i) circles

/-- The loops of `handleCircleCollisions` on the array of circles. -/
def collisionLoops [Rounding] (padding : JSNum) (circles : List Circle) : List Circle :=
  (List.range circles.length).foldl (collisionInner padding) circles

/-- The method `handleCircleCollisions()`. -/
def handleCircleCollisions [Rounding] (s : CirclePacking) : CirclePacking :=
  { s with circles := collisionLoops s.padding s.circles }

end CirclePacking

/-- JavaScript `Math.sqrt(a)`, over a function `sqrt` that gives the square root
of a non-negative rational as the host computes it. -/
def JSNum.sqrt (sqrt : ℚ → ℚ) (a : JSNum) : JSNum :=
  match a.toNum with
  | some p => if p < 0 then JSNum.nan else JSNum.num (sqrt p)
  | none => JSNum.nan

namespace CirclePacking

/-- The body of the loop of `updateMouseEvents` for one circle. -/
def mouseStep [Rounding] (sqrt : ℚ → ℚ) (x y blobRadius forceFactor : JSNum) (c : Circle) : Circle :=
  let dx := c.curr_x.sub x
  let dy := c.curr_y.sub y
  let d := (dx.mul dx).add (dy.mul dy)
  let r := blobRadius.add c.radius
  if d.le (r.mul r) then
    let dist := d.sqrt sqrt
    let force := (r.sub dist).div r
    let push := (force.mul blobRadius).mul forceFactor
    let nx := dx.div dist
    let ny := dy.div dist
    { c with curr_x := c.curr_x.add (push.mul nx), curr_y := c.curr_y.add (push.mul ny) }
  else c

/-- The method `updateMouseEvents()`. -/
def updateMouseEvents [Rounding] (sqrt : ℚ → ℚ) (s : CirclePacking) : CirclePacking :=
  if s.clicked then
    { s with circles :=
        s.circles.map (mouseStep sqrt s.mouse_x s.mouse_y s.blobRadius s.forceFactor) }
  else s

/-- The body of the first loop of `update`: `circle.update(deltatime)` and then
`stopGrowing()` for a circle outside the window. -/
def updateCircle [Rounding] (s : CirclePacking) (deltatime : JSNum) (c : Circle) : Circle :=
  let c := c.update deltatime
  if c.isOutsideWindow s.width s.height s.windowPadding then c.stopGrowing else c

/-- The method `update(deltatime)`; `rand` gives the values of `Math.random()`
during this tick. -/
def update [Rounding] (sqrt : ℚ → ℚ) (s : CirclePacking) (deltatime : JSNum) (rand : ℕ → ℚ) :
    CirclePacking :=
  let s := { s with circles := s.circles.map (s.updateCircle deltatime) }
  let s := s.addNewCircles rand
  let s := s.handleCircleCollisions
  s.updateMouseEvents sqrt

/-- The engine as the constructor leaves it, on a window of the given size and
with the candidate points and `maxCircles` that `createTextPixels` computed. -/
def init (width height : ℚ) (textPixels : List ℚ) (maxCircles : ℕ) : CirclePacking :=
  { textPixels := textPixels
    circles := []
    maxCircles := maxCircles
    finished := false
    maxAttempts := 100
    padding := 2
    windowPadding := 4
    width := JSNum.num width
    height := JSNum.num height
    blobRadius := 200
    forceFactor := JSNum.num (25 / 1000)
    mouse_x := 0
    mouse_y := 0
    clicked := false }

end CirclePacking

/-! ## Session reset -/

/-- The number of iterations of a loop `for(let i = 0; i < bound; i++)`. -/
def loopCount : JSNum → ℕ
  | JSNum.num q => ⌈q⌉.toNat
  | JSNum.nan => 0
  | JSNum.undefined => 0

/-- The read `data[index]` of the image data, a byte array: `none` stands for
`undefined`, which is what an index that is not an integer inside the array
gives. -/
def dataAt (data : List ℕ) (index : JSNum) : Option ℕ :=
  match index with
  | JSNum.num q => if q.den = 1 ∧ 0 ≤ q.num then data[q.num.toNat]? else none
  | JSNum.nan => none
  | JSNum.undefined => none

namespace CirclePacking

/-- The body of the inner loop of `createTextPixels` for the pixel `(i, j)`:
`if(textPixels[(i + j * this.width) * 4] === 255) this.textPixels.push(i, j)`,
where the local `textPixels` is the image data `data`. -/
def scanStep [Rounding] (width : JSNum) (data : List ℕ) (j : ℕ) (textPixels : List ℚ) (i : ℕ) : List ℚ :=
  if dataAt data (((JSNum.num i).add ((JSNum.num j).mul width)).mul 4) = some 255 then
    textPixels ++ [(i : ℚ), (j : ℚ)]
  else textPixels

/-- The method `createTextPixels()`.  The argument `data` is the array
`this.context.getImageData(0, 0, this.width, this.height).data` that the canvas
returns once `drawWrappedText()` has drawn the text: four bytes per pixel.  The
literal `0.01` is the rational 1/100. -/
def createTextPixels [Rounding] (s : CirclePacking) (data : List ℕ) : CirclePacking :=
  let textPixels := (List.range (loopCount s.height)).foldl
    (fun tp j => (List.range (loopCount s.width)).foldl (scanStep s.width data j) tp) []
  { s with textPixels := textPixels
           maxCircles := ⌊(data.length : ℚ) * (1 / 100)⌋.toNat }

/-- The method `reset()`; `data` is the image data that its call of
`createTextPixels()` reads. -/
def reset [Rounding] (s : CirclePacking) (data : List ℕ) : CirclePacking :=
  createTextPixels { s with circles := [], finished := false } data

end CirclePacking

/-! ## Ticks -/

/-- What one animation frame receives from outside: the elapsed time, the values
of `Math.random()` during the frame, and the pointer state that the mouse
event handlers have left in the fields `clicked` and `mouse`. -/
structure TickInput where
  deltatime : JSNum
  rand : ℕ → ℚ
  clicked : Bool
  mouse_x : JSNum
  mouse_y : JSNum

namespace CirclePacking

/-- One frame: the pointer state written by the event handlers, then
`update(deltatime)`. -/
def tick [Rounding] (sqrt : ℚ → ℚ) (s : CirclePacking) (inp : TickInput) : CirclePacking :=
  update sqrt { s with clicked := inp.clicked, mouse_x := inp.mouse_x, mouse_y := inp.mouse_y }
    inp.deltatime inp.rand

/-- A sequence of frames. -/
def run [Rounding] (sqrt : ℚ → ℚ) (s : CirclePacking) (inputs : List TickInput) : CirclePacking :=
  inputs.foldl (tick sqrt) s

end CirclePacking

/-! ## Rounding functions -/

/-- No rounding: the arithmetic of exact rationals.  This is the instance that a
statement without the argument `[Rounding]` is about. -/
instance Rounding.exact : Rounding := ⟨fun q => q⟩

/-- The floor of the base 2 logarithm of `n`, by halving at most `fuel` times. -/
def log2Fuel : ℕ → ℕ → ℕ
  | 0, _ => 0
  | fuel + 1, n => if n < 2 then 0 else log2Fuel fuel (n / 2) + 1

/-- The floor of the base 2 logarithm of a positive rational: `2^e <= q < 2^(e+1)`. -/
def floorLog2 (q : ℚ) : ℤ :=
  let e : ℤ := (log2Fuel q.num.toNat q.num.toNat : ℤ) - (log2Fuel q.den q.den : ℤ)
  if (2 : ℚ) ^ e ≤ q then e else e - 1

/-- The nearest integer of a non-negative rational, a tie going to the even one. -/
def roundHalfEven (m : ℚ) : ℤ :=
  let f : ℤ := ⌊m⌋
  let r : ℚ := m - f
  if r < 1 / 2 then f
  else if 1 / 2 < r then f + 1
  else if f % 2 = 0 then f else f + 1

/-- The nearest number with a significand of 53 bits, ties to even: the rounding
of IEEE 754 binary64 for results in the range of normal doubles. -/
def roundBinary64 (q : ℚ) : ℚ :=
  if q = 0 then 0
  else
    let a := |q|
    let ulp : ℚ := (2 : ℚ) ^ (floorLog2 a - 52)
    let v : ℚ := (roundHalfEven (a / ulp) : ℚ) * ulp
    if q < 0 then -v else v

/-- The arithmetic of IEEE 754 doubles, round to nearest, ties to even. -/
def Rounding.binary64 : Rounding := ⟨roundBinary64⟩

/-! ## Auxiliary definitions for the proofs -/

namespace CirclePacking

/-- The circles of `added` were appended one after the other to `circles`, each
one a fresh circle that the overlap test accepted against the list before it. -/
def PlacedOk [Rounding] (padding : JSNum) : List Circle → List Circle → Prop
  | _, [] => True
  | circles, c :: rest =>
    (c = Circle.new c.x c.y JSNum.undefined ∧
      isCircleOverlapping circles padding c.x c.y Circle.startRadius = false) ∧
    PlacedOk padding (circles ++ [c]) rest

/-- The anchor `(x, y)` of a circle. -/
def anchor (c : Circle) : JSNum × JSNum := (c.x, c.y)

/-- The circle `c`, frozen when `b` holds. -/
def freezeIf (b : Bool) (c : Circle) : Circle := if b then c.stopGrowing else c

/-- The collision test of `handleCircleCollisions` on the circles at the indices
`i` and `j` of a list. -/
def collidesAt [Rounding] (padding : JSNum) (circles : List Circle) (i j : ℕ) : Bool :=
  match circles[i]?, circles[j]? with
  | some a, some b => collides padding a b
  | _, _ => false

/-- The strict inequality of the collision test on two circles,
`(|x1 - x2| - padding)^2 + (|y1 - y2| - padding)^2 < (r1 + r2)^2`, written out in
the operations of JavaScript numbers (each one rounds; a comparison with `NaN` is
false). -/
def StrictlyOverlap [Rounding] (padding : JSNum) (a b : Circle) : Prop :=
  (((((a.x.sub b.x).abs).sub padding).mul (((a.x.sub b.x).abs).sub padding)).add
      ((((a.y.sub b.y).abs).sub padding).mul (((a.y.sub b.y).abs).sub padding))).lt
    ((a.radius.add b.radius).mul (a.radius.add b.radius)) = true

/-- The circle at index `k` of the list belongs to at least one pair of indices
`i < j` whose circles satisfy the strict inequality. -/
def InCollidingPair [Rounding] (padding : JSNum) (circles : List Circle) (k : ℕ) : Prop :=
  ∃ (i j : ℕ) (a b : Circle), i < j ∧ (k = i ∨ k = j) ∧
    circles[i]? = some a ∧ circles[j]? = some b ∧ StrictlyOverlap padding a b

/-- The list `circles'` is `circles` with the circles at the indices selected by
`m` frozen. -/
def Masked (circles circles' : List Circle) (m : ℕ → Bool) : Prop :=
  circles'.length = circles.length ∧
    ∀ k, circles'[k]? = (circles[k]?).map (freezeIf (m k))

/-- The circle at index `k` belongs to a pair `i < j` of the list that passes
the collision test. -/
def hit [Rounding] (padding : JSNum) (circles : List Circle) (k : ℕ) : Bool :=
  (List.range circles.length).any fun i =>
    (List.range' (i + 1) (circles.length - (i + 1))).any fun j =>
      (k == i || k == j) && collidesAt padding circles i j

end CirclePacking

/-! ## Concrete engine states -/

namespace Example

/-- An engine on a 1000 x 1000 window holding two growing circles, of radius 3 at
(100, 100) and of radius 5 at (110, 102): with padding 2 the distance term is
`(10 - 2)^2 + (2 - 2)^2 = 64 = (3 + 5)^2`. -/
def touching : CirclePacking :=
  { CirclePacking.init 1000 1000 [100, 100, 110, 102] 5000 with
    circles := [Circle.new 100 100 3, Circle.new 110 102 5] }

/-- A fresh session on a 1000 x 1000 window whose only candidate point is
(10, 10), with `maxCircles = 1`. -/
def singlePoint : CirclePacking := CirclePacking.init 1000 1000 [10, 10] 1

/-- The engine `singlePoint` once a circle is anchored at (10, 10). -/
def occupied : CirclePacking :=
  { singlePoint with circles := [Circle.new 10 10 JSNum.undefined] }

/-- A fresh session on a 1000 x 1000 window with an empty list of candidate
points; `maxCircles` is what `createTextPixels` computes from the image data of
that window, `Math.floor(1000 * 1000 * 4 * 0.01)`. -/
def noPixels : CirclePacking := CirclePacking.init 1000 1000 [] 40000

/-- A fresh session with the candidate points (100, 100), (102, 102) and
(300, 300).  A circle at (100, 100) makes the overlap test reject (102, 102). -/
def threePoints (maxCircles : ℕ) : CirclePacking :=
  CirclePacking.init 1000 1000 [100, 100, 102, 102, 300, 300] maxCircles

/-- Samples for a first call on `threePoints`: the point (100, 100), then the
point (102, 102) ninety-nine times. -/
def firstCall (k : ℕ) : ℚ := if k = 0 then 0 else 1 / 3

/-- Samples for a second call on `threePoints`: the point (102, 102), then
(300, 300), then (102, 102) again. -/
def secondCall (k : ℕ) : ℚ := if k = 1 then 2 / 3 else 1 / 3

/-- Samples for one call on `threePoints`: the points (100, 100) and (300, 300),
then (102, 102) ninety-eight times. -/
def twoPlaced (k : ℕ) : ℚ := if k = 0 then 0 else if k = 1 then 2 / 3 else 1 / 3

/-- An engine on a 1000 x 1000 window holding one frozen circle of radius 3 at
(100, 100), with the pointer pressed at (101, 100). -/
def oneFrozen : CirclePacking :=
  { CirclePacking.init 1000 1000 [100, 100, 300, 300] 40000 with
    circles := [(Circle.new 100 100 3).stopGrowing]
    clicked := true
    mouse_x := 101
    mouse_y := 100 }

/-- The image data of a 10 x 10 canvas on which the three pixels (2, 1), (3, 1)
and (2, 2) are white (bytes 255, 255, 255, 255) and the others are transparent
black: 400 bytes. -/
def threeWhite : List ℕ :=
  (List.range 400).map fun t => if t / 4 = 12 ∨ t / 4 = 13 ∨ t / 4 = 22 then 255 else 0

/-- An engine on a 10 x 10 window, before its first `reset()`. -/
def small : CirclePacking := CirclePacking.init 10 10 [] 5000

/-- An engine on a 1000 x 1000 window holding one growing circle of radius 3 whose
anchor and smoothed position are (100, 100), with the pointer pressed exactly
there. -/
def pointerOnCentre : CirclePacking :=
  { CirclePacking.init 1000 1000 [100, 100, 300, 300] 40000 with
    circles := [Circle.new 100 100 3]
    clicked := true
    mouse_x := 100
    mouse_y := 100 }

/-- A square root that is exact on the squares of rationals: the integer square
root of numerator times denominator, over the denominator. -/
def sqrt (q : ℚ) : ℚ := (Nat.sqrt (q.num.toNat * q.den) : ℚ) / q.den

/-- An engine on a 1000 x 1000 window holding one growing circle of radius 1
anchored at (3, 100), less than `windowPadding` away from the left edge. -/
def nearEdge : CirclePacking :=
  { CirclePacking.init 1000 1000 [3, 100, 300, 300] 40000 with
    circles := [Circle.new 3 100 JSNum.undefined] }

/-- An engine on a 1000 x 1000 window holding two growing circles of radius 3, at
(100, 100) and (105, 102): with padding 2, `(5 - 2)^2 + (2 - 2)^2 = 9 < 36`. -/
def overlapping : CirclePacking :=
  { CirclePacking.init 1000 1000 [100, 100, 105, 102] 40000 with
    circles := [Circle.new 100 100 3, Circle.new 105 102 3] }

/-- A circle anchored at (100, 100) whose smoothed position is (0, 100). -/
def farFromAnchor : Circle := { Circle.new 100 100 JSNum.undefined with curr_x := 0 }

end Example

/-! ## Lemmas on numbers -/

/-- The instance `Rounding.exact` does not round. -/
@[simp]
theorem Rounding.rnd_exact (q : ℚ) : Rounding.rnd q = q := rfl

namespace JSNum

theorem add_swap [Rounding] (a b : JSNum) : a.add b = b.add a := by
  cases a <;> cases b <;> simp [add, toNum, add_comm]

theorem le_of_lt_eq_true (a b : JSNum) (h : a.lt b = true) : a.le b = true := by
  cases a <;> cases b <;> simp_all [lt, le, toNum]
  exact le_of_lt h

theorem toNum_add (a b : JSNum) :
    (a.add b).toNum = a.toNum.bind fun p => b.toNum.map fun q => p + q := by
  cases a <;> cases b <;> simp [add, toNum]

theorem toNum_sub (a b : JSNum) :
    (a.sub b).toNum = a.toNum.bind fun p => b.toNum.map fun q => p - q := by
  cases a <;> cases b <;> simp [sub, toNum]

theorem toNum_mul (a b : JSNum) :
    (a.mul b).toNum = a.toNum.bind fun p => b.toNum.map fun q => p * q := by
  cases a <;> cases b <;> simp [mul, toNum]

theorem toNum_abs (a : JSNum) : a.abs.toNum = a.toNum.map fun p => |p| := by
  cases a <;> simp [abs, toNum]

theorem le_eq_true_iff (a b : JSNum) :
    a.le b = true ↔ ∃ p q, a.toNum = some p ∧ b.toNum = some q ∧ p ≤ q := by
  cases a <;> cases b <;> simp [le, toNum]

theorem lt_eq_true_iff (a b : JSNum) :
    a.lt b = true ↔ ∃ p q, a.toNum = some p ∧ b.toNum = some q ∧ p < q := by
  cases a <;> cases b <;> simp [lt, toNum]

end JSNum

/-! ## The overlap test: lemmas -/

/-- The test of `isCircleOverlapping` on one circle, in exact arithmetic: it
holds exactly when every operand is a number and the inequality holds. -/
theorem overlapsWith_iff (padding x y radius : JSNum) (c : Circle) :
    overlapsWith padding x y radius c = true ↔
      ∃ cx cy cr xq yq rq pq : ℚ,
        c.x.toNum = some cx ∧ c.y.toNum = some cy ∧ c.radius.toNum = some cr ∧
        x.toNum = some xq ∧ y.toNum = some yq ∧ radius.toNum = some rq ∧
        padding.toNum = some pq ∧
        (|cx - xq| - pq) ^ 2 + (|cy - yq| - pq) ^ 2 ≤ (rq + cr) ^ 2 := by
  unfold overlapsWith
  simp only [JSNum.le_eq_true_iff, JSNum.toNum_add, JSNum.toNum_mul, JSNum.toNum_sub,
    JSNum.toNum_abs]
  generalize c.x.toNum = a1
  generalize c.y.toNum = a2
  generalize c.radius.toNum = a3
  generalize x.toNum = a4
  generalize y.toNum = a5
  generalize radius.toNum = a6
  generalize padding.toNum = a7
  rcases a1 with _ | a1
  · simp
  rcases a2 with _ | a2
  · simp
  rcases a3 with _ | a3
  · simp
  rcases a4 with _ | a4
  · simp
  rcases a5 with _ | a5
  · simp
  rcases a6 with _ | a6
  · simp
  rcases a7 with _ | a7
  · simp
  simp [pow_two]

theorem isCircleOverlappingLoop_iff [Rounding] (padding x y radius : JSNum) (circles : List Circle) :
    isCircleOverlappingLoop padding x y radius circles = true ↔
      ∃ c ∈ circles, overlapsWith padding x y radius c = true := by
  induction circles with
  | nil => simp [isCircleOverlappingLoop]
  | cons c rest ih =>
    by_cases h : overlapsWith padding x y radius c = true
    · simp [isCircleOverlappingLoop, h]
    · simp [isCircleOverlappingLoop, h, ih]

theorem isCircleOverlapping_eq_false_iff [Rounding] (circles : List Circle) (padding x y radius : JSNum) :
    isCircleOverlapping circles padding x y radius = false ↔
      ∀ c ∈ circles, overlapsWith padding x y (radius.orDefault Circle.startRadius) c = false := by
  have h := isCircleOverlappingLoop_iff padding x y (radius.orDefault Circle.startRadius) circles
  unfold isCircleOverlapping
  constructor
  · intro hf c hc
    by_contra hne
    have : isCircleOverlappingLoop padding x y (radius.orDefault Circle.startRadius) circles
        = true := h.2 ⟨c, hc, by simpa using hne⟩
    simp [hf] at this
  · intro hall
    by_contra hne
    obtain ⟨c, hc, hov⟩ := h.1 (by simpa using hne)
    simp [hall c hc] at hov

theorem orDefault_of_ne_undefined (a d : JSNum) (h : a ≠ JSNum.undefined) :
    a.orDefault d = a := by
  cases a <;> simp_all [JSNum.orDefault]

/-! ## Placement: lemmas -/

namespace CirclePacking

theorem createCircle_eq_some [Rounding] (s : CirclePacking) (random : ℚ) (c : Circle)
    (h : s.createCircle random = some c) :
    c = Circle.new c.x c.y JSNum.undefined ∧
      isCircleOverlapping s.circles s.padding c.x c.y Circle.startRadius = false := by
  unfold createCircle at h
  simp only at h
  split at h
  · simp at h
  · rename_i hno
    simp only [Option.some.injEq] at h
    subst h
    refine ⟨rfl, ?_⟩
    simpa [isCircleOverlapping, JSNum.orDefault, Circle.new, Circle.startRadius] using hno

theorem addNewCirclesLoop_spec [Rounding] (rand : ℕ → ℚ) (n : ℕ) :
    ∀ (i attempts : ℕ) (s : CirclePacking),
      ∃ added : List Circle,
        (addNewCirclesLoop rand n i attempts s).1 = { s with circles := s.circles ++ added } ∧
        PlacedOk s.padding s.circles added ∧ added.length ≤ n := by
  induction n with
  | zero =>
    intro i attempts s
    exact ⟨[], by simp [addNewCirclesLoop], trivial, le_refl _⟩
  | succ n ih =>
    intro i attempts s
    unfold addNewCirclesLoop
    split
    · cases hc : s.createCircle (rand i) with
      | none =>
        obtain ⟨added, h1, h2, h3⟩ := ih (i + 1) (attempts + 1) s
        exact ⟨added, by simpa using h1, h2, by omega⟩
      | some c =>
        obtain ⟨added, h1, h2, h3⟩ := ih (i + 1) 0 { s with circles := s.circles ++ [c] }
        refine ⟨c :: added, ?_, ⟨createCircle_eq_some s _ c hc, h2⟩, by simp; omega⟩
        simpa using h1
    · exact ⟨[], by simp, trivial, Nat.zero_le _⟩

theorem PlacedOk_split [Rounding] (padding : JSNum) :
    ∀ (added circles pre : List Circle) (c : Circle) (post : List Circle),
      PlacedOk padding circles added → added = pre ++ c :: post →
      c = Circle.new c.x c.y JSNum.undefined ∧
        isCircleOverlapping (circles ++ pre) padding c.x c.y Circle.startRadius = false := by
  intro added
  induction added with
  | nil => intro circles pre c post _ h; simp at h
  | cons a rest ih =>
    intro circles pre c post hok h
    cases pre with
    | nil =>
      simp only [List.nil_append, List.cons.injEq] at h
      obtain ⟨rfl, -⟩ := h
      simpa using hok.1
    | cons b pre =>
      simp only [List.cons_append, List.cons.injEq] at h
      obtain ⟨rfl, hrest⟩ := h
      have := ih (circles ++ [a]) pre c post hok.2 hrest
      simpa using this

/-- The engine after `addNewCircles`: only `circles` and `finished` can differ,
and `circles` only grows at its end. -/
theorem addNewCircles_spec [Rounding] (s : CirclePacking) (rand : ℕ → ℚ) :
    ∃ (added : List Circle) (fin : Bool),
      s.addNewCircles rand = { s with circles := s.circles ++ added, finished := fin } ∧
      PlacedOk s.padding s.circles added ∧ added.length ≤ 100 := by
  unfold addNewCircles
  split
  · obtain ⟨added, h1, h2, h3⟩ := addNewCirclesLoop_spec rand 100 0 0 s
    simp only
    split
    · exact ⟨added, true, by rw [h1], h2, h3⟩
    · exact ⟨added, s.finished, by rw [h1], h2, h3⟩
  · exact ⟨[], s.finished, by simp, trivial, Nat.zero_le _⟩

end CirclePacking

/-! ## Collisions: lemmas -/

namespace CirclePacking

theorem collides_freezeIf [Rounding] (padding : JSNum) (b b' : Bool) (a c : Circle) :
    collides padding (freezeIf b a) (freezeIf b' c) = collides padding a c := by
  cases b <;> cases b' <;> rfl

theorem freezeIf_freezeIf (b b' : Bool) (c : Circle) :
    freezeIf b (freezeIf b' c) = freezeIf (b' || b) c := by
  cases b <;> cases b' <;> rfl

theorem Masked.collidesAt_eq [Rounding] {circles circles' : List Circle} {m : ℕ → Bool}
    (h : Masked circles circles' m) (padding : JSNum) (i j : ℕ) :
    collidesAt padding circles' i j = collidesAt padding circles i j := by
  unfold collidesAt
  rw [h.2 i, h.2 j]
  cases circles[i]? <;> cases circles[j]? <;> simp [collides_freezeIf]

theorem Masked.refl (circles : List Circle) : Masked circles circles (fun _ => false) :=
  ⟨rfl, fun k => by cases circles[k]? <;> simp [freezeIf]⟩

theorem Masked.congr {circles circles' : List Circle} {m m' : ℕ → Bool}
    (h : Masked circles circles' m) (hm : ∀ k, m k = m' k) : Masked circles circles' m' :=
  ⟨h.1, fun k => by rw [h.2 k, hm k]⟩

theorem Masked.step [Rounding] {circles circles' : List Circle} {m : ℕ → Bool}
    (h : Masked circles circles' m) (padding : JSNum) (i j : ℕ) :
    Masked circles (collisionStep padding i circles' j)
      (fun k => m k || ((k == i || k == j) && collidesAt padding circles i j)) := by
  have hc := h.collidesAt_eq padding i j
  unfold collisionStep
  cases hi : circles'[i]? with
  | none =>
    have : collidesAt padding circles' i j = false := by simp [collidesAt, hi]
    rw [← hc, this]
    exact h.congr (fun k => by simp)
  | some a =>
    cases hj : circles'[j]? with
    | none =>
      have : collidesAt padding circles' i j = false := by simp [collidesAt, hi, hj]
      rw [← hc, this]
      exact h.congr (fun k => by simp)
    | some b =>
      have hcol : collidesAt padding circles' i j = collides padding a b := by
        simp [collidesAt, hi, hj]
      rw [← hc, hcol]
      by_cases hab : collides padding a b = true
      · simp only [hab, if_true, Bool.and_true]
        refine ⟨by simp [List.length_modify, h.1], fun k => ?_⟩
        rw [List.getElem?_modify, List.getElem?_modify, h.2 k]
        cases circles[k]? with
        | none => simp
        | some c =>
          have e1 : (k == i) = (i == k) :=
            Bool.eq_iff_iff.2 (by simp only [beq_iff_eq]; exact eq_comm)
          have e2 : (k == j) = (j == k) :=
            Bool.eq_iff_iff.2 (by simp only [beq_iff_eq]; exact eq_comm)
          simp only [e1, e2]
          by_cases hki : i = k <;> by_cases hkj : j = k <;>
            cases hm : m k <;>
            simp [hki, hkj, hm, freezeIf, Circle.stopGrowing]
      · simp only [hab, Bool.and_false, Bool.or_false]
        exact h.congr (fun k => by simp)

theorem Masked.foldl_step [Rounding] {circles : List Circle} (padding : JSNum) (i : ℕ) (js : List ℕ) :
    ∀ {circles' : List Circle} {m : ℕ → Bool}, Masked circles circles' m →
      Masked circles (js.foldl (collisionStep padding i) circles')
        (fun k => m k || js.any fun j => (k == i || k == j) && collidesAt padding circles i j) := by
  induction js with
  | nil => intro circles' m h; exact h.congr (fun k => by simp)
  | cons j js ih =>
    intro circles' m h
    simp only [List.foldl_cons]
    exact (ih (h.step padding i j)).congr (fun k => by simp [Bool.or_assoc])

theorem Masked.inner [Rounding] {circles circles' : List Circle} {m : ℕ → Bool}
    (h : Masked circles circles' m) (padding : JSNum) (i : ℕ) :
    Masked circles (collisionInner padding circles' i)
      (fun k => m k || (List.range' (i + 1) (circles.length - (i + 1))).any fun j =>
        (k == i || k == j) && collidesAt padding circles i j) := by
  unfold collisionInner
  rw [h.1]
  exact Masked.foldl_step padding i _ h

theorem Masked.foldl_inner [Rounding] {circles : List Circle} (padding : JSNum) (is : List ℕ) :
    ∀ {circles' : List Circle} {m : ℕ → Bool}, Masked circles circles' m →
      Masked circles (is.foldl (collisionInner padding) circles')
        (fun k => m k || is.any fun i =>
          (List.range' (i + 1) (circles.length - (i + 1))).any fun j =>
            (k == i || k == j) && collidesAt padding circles i j) := by
  induction is with
  | nil => intro circles' m h; exact h.congr (fun k => by simp)
  | cons i is ih =>
    intro circles' m h
    simp only [List.foldl_cons]
    exact (ih (h.inner padding i)).congr (fun k => by simp [Bool.or_assoc])

/-- The loops of `handleCircleCollisions` freeze exactly the circles selected by
`hit` and change nothing else. -/
theorem collisionLoops_masked [Rounding] (padding : JSNum) (circles : List Circle) :
    Masked circles (collisionLoops padding circles) (hit padding circles) := by
  unfold collisionLoops
  exact (Masked.foldl_inner padding _ (Masked.refl circles)).congr (fun k => by simp [hit])

theorem hit_iff [Rounding] (padding : JSNum) (circles : List Circle) (k : ℕ) :
    hit padding circles k = true ↔
      ∃ i j, i < j ∧ j < circles.length ∧ (k = i ∨ k = j) ∧
        collidesAt padding circles i j = true := by
  unfold hit
  simp only [List.any_eq_true, List.mem_range, List.mem_range', Bool.and_eq_true,
    Bool.or_eq_true, beq_iff_eq]
  constructor
  · rintro ⟨i, hi, j, ⟨t, ht, rfl⟩, hk, hc⟩
    exact ⟨i, i + 1 + 1 * t, by omega, by omega, hk, hc⟩
  · rintro ⟨i, j, hij, hj, hk, hc⟩
    exact ⟨i, by omega, j, ⟨j - (i + 1), by omega, by omega⟩, hk, hc⟩

end CirclePacking

namespace CirclePacking

/-- The collision test of `handleCircleCollisions`, in exact arithmetic. -/
theorem collides_iff (padding : JSNum) (a b : Circle) :
    collides padding a b = true ↔
      ∃ x1 y1 r1 x2 y2 r2 pq : ℚ,
        a.x.toNum = some x1 ∧ a.y.toNum = some y1 ∧ a.radius.toNum = some r1 ∧
        b.x.toNum = some x2 ∧ b.y.toNum = some y2 ∧ b.radius.toNum = some r2 ∧
        padding.toNum = some pq ∧
        (|x1 - x2| - pq) ^ 2 + (|y1 - y2| - pq) ^ 2 < (r1 + r2) ^ 2 := by
  unfold collides
  simp only [JSNum.lt_eq_true_iff, JSNum.toNum_add, JSNum.toNum_mul, JSNum.toNum_sub,
    JSNum.toNum_abs]
  generalize a.x.toNum = a1
  generalize a.y.toNum = a2
  generalize a.radius.toNum = a3
  generalize b.x.toNum = a4
  generalize b.y.toNum = a5
  generalize b.radius.toNum = a6
  generalize padding.toNum = a7
  rcases a1 with _ | a1
  · simp
  rcases a2 with _ | a2
  · simp
  rcases a3 with _ | a3
  · simp
  rcases a4 with _ | a4
  · simp
  rcases a5 with _ | a5
  · simp
  rcases a6 with _ | a6
  · simp
  rcases a7 with _ | a7
  · simp
  simp [pow_two]

theorem collides_comm (padding : JSNum) (a b : Circle) :
    collides padding a b = collides padding b a := by
  rw [Bool.eq_iff_iff, collides_iff, collides_iff]
  constructor
  · rintro ⟨x1, y1, r1, x2, y2, r2, pq, h1, h2, h3, h4, h5, h6, h7, h⟩
    exact ⟨x2, y2, r2, x1, y1, r1, pq, h4, h5, h6, h1, h2, h3, h7,
      by rw [abs_sub_comm x2 x1, abs_sub_comm y2 y1, add_comm r2 r1]; exact h⟩
  · rintro ⟨x1, y1, r1, x2, y2, r2, pq, h1, h2, h3, h4, h5, h6, h7, h⟩
    exact ⟨x2, y2, r2, x1, y1, r1, pq, h4, h5, h6, h1, h2, h3, h7,
      by rw [abs_sub_comm x2 x1, abs_sub_comm y2 y1, add_comm r2 r1]; exact h⟩

/-- After the loops of `handleCircleCollisions`, two circles at indices `i < j`
that pass the collision test are both frozen. -/
theorem collisionLoops_frozen [Rounding] (padding : JSNum) (circles : List Circle) (i j : ℕ)
    (a b : Circle) (hij : i < j)
    (ha : (collisionLoops padding circles)[i]? = some a)
    (hb : (collisionLoops padding circles)[j]? = some b)
    (hc : collides padding a b = true) : a.growing = false ∧ b.growing = false := by
  have M := collisionLoops_masked padding circles
  have hi := M.2 i
  have hj := M.2 j
  rw [ha] at hi
  rw [hb] at hj
  cases hi0 : circles[i]? with
  | none => simp [hi0] at hi
  | some a0 =>
    cases hj0 : circles[j]? with
    | none => simp [hj0] at hj
    | some b0 =>
      simp only [hi0, hj0, Option.map_some', Option.some.injEq] at hi hj
      have hjlt : j < circles.length := by
        by_contra hge
        rw [List.getElem?_eq_none (by omega)] at hj0
        exact Option.noConfusion hj0
      have hcol : collidesAt padding circles i j = true := by
        simp only [collidesAt, hi0, hj0]
        rw [← collides_freezeIf padding (hit padding circles i) (hit padding circles j),
          ← hi, ← hj]
        exact hc
      have h1 : hit padding circles i = true :=
        (hit_iff padding circles i).2 ⟨i, j, hij, hjlt, Or.inl rfl, hcol⟩
      have h2 : hit padding circles j = true :=
        (hit_iff padding circles j).2 ⟨i, j, hij, hjlt, Or.inr rfl, hcol⟩
      rw [h1] at hi
      rw [h2] at hj
      subst hi
      subst hj
      exact ⟨rfl, rfl⟩

end CirclePacking

/-! ## The loop of `addNewCircles`: lemmas -/

namespace CirclePacking

/-- When every attempt places the same circle `c`, the loop appends one `c` per
iteration. -/
theorem addNewCirclesLoop_all_placed [Rounding] (rand : ℕ → ℚ) (s : CirclePacking) (c : Circle)
    (hM : 0 < s.maxAttempts)
    (h : ∀ k i, ({ s with circles := List.replicate k c } : CirclePacking).createCircle (rand i)
      = some c) (n : ℕ) :
    ∀ i k, addNewCirclesLoop rand n i 0 { s with circles := List.replicate k c }
      = ({ s with circles := List.replicate (k + n) c }, 0) := by
  induction n with
  | zero => intro i k; simp [addNewCirclesLoop]
  | succ n ih =>
    intro i k
    unfold addNewCirclesLoop
    simp only [hM, if_true, h k i]
    have e : List.replicate k c ++ [c] = List.replicate (k + 1) c := by
      rw [List.replicate_succ', ]
    rw [e, ih (i + 1) (k + 1)]
    congr 3
    omega

/-- While the counter cannot reach `maxAttempts` before the loop ends, the final
value of `attempts` is the number of failures in a row at the end; it is the
largest possible exactly when every attempt of the loop failed. -/
theorem addNewCirclesLoop_attempts [Rounding] (rand : ℕ → ℚ) (n : ℕ) :
    ∀ (i attempts : ℕ) (s : CirclePacking), attempts + n ≤ s.maxAttempts →
      (addNewCirclesLoop rand n i attempts s).2 ≤ attempts + n ∧
      ((addNewCirclesLoop rand n i attempts s).2 = attempts + n ↔
        ∀ k < n, s.createCircle (rand (i + k)) = none) := by
  induction n with
  | zero => intro i attempts s _; simp [addNewCirclesLoop]
  | succ n ih =>
    intro i attempts s hle
    unfold addNewCirclesLoop
    have hlt : attempts < s.maxAttempts := by omega
    simp only [hlt, if_true]
    cases hc : s.createCircle (rand i) with
    | none =>
      obtain ⟨h1, h2⟩ := ih (i + 1) (attempts + 1) s (by omega)
      refine ⟨by simpa using (by omega : _ ≤ attempts + (n + 1)), ?_⟩
      simp only
      rw [show attempts + (n + 1) = attempts + 1 + n by omega, h2]
      constructor
      · intro hall k hk
        cases k with
        | zero => simpa using hc
        | succ k =>
          have := hall k (by omega)
          rwa [show i + 1 + k = i + (k + 1) by omega] at this
      · intro hall k hk
        have := hall (k + 1) (by omega)
        rwa [show i + (k + 1) = i + 1 + k by omega] at this
    | some c =>
      obtain ⟨h1, -⟩ := ih (i + 1) 0 { s with circles := s.circles ++ [c] }
        (by simpa using (by omega : n ≤ s.maxAttempts))
      simp only
      refine ⟨by omega, ?_⟩
      constructor
      · intro heq; omega
      · intro hall
        have := hall 0 (by omega)
        simp [hc] at this

end CirclePacking

namespace CirclePacking

/-- The final value of `finished` after `addNewCircles`, from an active engine
with room left. -/
theorem addNewCircles_finished_iff [Rounding] (s : CirclePacking) (rand : ℕ → ℚ)
    (hfin : s.finished = false) (hlen : s.circles.length < s.maxCircles)
    (hM : s.maxAttempts = 100) :
    (s.addNewCircles rand).finished = true ↔
      (s.maxCircles ≤ (s.addNewCircles rand).circles.length ∨
        ∀ k < 100, s.createCircle (rand k) = none) := by
  obtain ⟨added, h1, -, -⟩ := addNewCirclesLoop_spec rand 100 0 0 s
  obtain ⟨-, h3⟩ := addNewCirclesLoop_attempts rand 100 0 0 s (by omega)
  have h2 := (addNewCirclesLoop_attempts rand 100 0 0 s (by omega)).1
  simp only [Nat.zero_add] at h2 h3
  unfold addNewCircles
  simp only [hfin, hlen, Bool.not_false, Bool.true_and, decide_True, if_true]
  rw [h1] at *
  simp only [hM, ge_iff_le, Bool.or_eq_true, decide_eq_true_eq]
  have e : (100 ≤ (addNewCirclesLoop rand 100 0 0 s).2) ↔
      (addNewCirclesLoop rand 100 0 0 s).2 = 100 := by omega
  split
  · rename_i hcond
    simp only [true_iff]
    rcases hcond with hc | hc
    · exact Or.inl hc
    · exact Or.inr (h3.1 (e.1 hc))
  · rename_i hcond
    simp only [hfin, Bool.false_eq_true, false_iff]
    rintro (hc | hc)
    · exact hcond (Or.inl hc)
    · exact hcond (Or.inr (e.2 (h3.2 hc)))

theorem createCircle_singlePoint (r : ℚ) (h0 : 0 ≤ r) (h1 : r < 1) (k : ℕ) :
    ({ Example.singlePoint with
        circles := List.replicate k (Circle.new 10 10 JSNum.undefined) } :
      CirclePacking).createCircle r = some (Circle.new 10 10 JSNum.undefined) := by
  have hfloor : ⌊r * ((2 : ℕ) : ℚ) / 2⌋ = 0 := by
    rw [Int.floor_eq_zero_iff]
    constructor <;> push_cast <;> linarith
  have hno : isCircleOverlapping (List.replicate k (Circle.new 10 10 JSNum.undefined))
      2 10 10 JSNum.undefined = false := by
    rw [isCircleOverlapping_eq_false_iff]
    intro c hc
    rw [List.eq_of_mem_replicate hc]
    decide!
  unfold createCircle
  simp only [Example.singlePoint, init, List.length_cons, List.length_nil, Nat.zero_add,
    Nat.reduceAdd, Rounding.rnd_exact, hfloor]
  have p0 : pixelAt [10, 10] (0 * 2) = 10 := by decide!
  have p1 : pixelAt [10, 10] (0 * 2 + 1) = 10 := by decide!
  rw [p0, p1, hno]
  rfl

theorem createCircle_noPixels (r : ℚ) (k : ℕ) :
    ({ Example.noPixels with
        circles := List.replicate k
          (Circle.new JSNum.undefined JSNum.undefined JSNum.undefined) } :
      CirclePacking).createCircle r
      = some (Circle.new JSNum.undefined JSNum.undefined JSNum.undefined) := by
  have hfloor : ⌊r * ((0 : ℕ) : ℚ) / 2⌋ = 0 := by simp
  have hno : isCircleOverlapping
      (List.replicate k (Circle.new JSNum.undefined JSNum.undefined JSNum.undefined))
      2 JSNum.undefined JSNum.undefined JSNum.undefined = false := by
    rw [isCircleOverlapping_eq_false_iff]
    intro c hc
    rw [List.eq_of_mem_replicate hc]
    decide!
  unfold createCircle
  simp only [Example.noPixels, init, List.length_nil, Rounding.rnd_exact, hfloor]
  have p0 : pixelAt [] (0 * 2) = JSNum.undefined := by decide!
  have p1 : pixelAt [] (0 * 2 + 1) = JSNum.undefined := by decide!
  rw [p0, p1, hno]
  rfl

end CirclePacking

/-! ## One tick, seen from one circle -/

namespace CirclePacking

theorem addNewCircles_getElem? [Rounding] (s : CirclePacking) (rand : ℕ → ℚ) (k : ℕ) (c : Circle)
    (h : s.circles[k]? = some c) : (s.addNewCircles rand).circles[k]? = some c := by
  obtain ⟨added, fin, h1, -, -⟩ := addNewCircles_spec s rand
  rw [h1]
  have hk : k < s.circles.length := by
    by_contra hge
    rw [List.getElem?_eq_none (by omega)] at h
    exact Option.noConfusion h
  simp only
  rw [List.getElem?_append_left hk, h]

theorem handleCircleCollisions_getElem? [Rounding] (s : CirclePacking) (k : ℕ) (c : Circle)
    (h : s.circles[k]? = some c) :
    s.handleCircleCollisions.circles[k]? = some (freezeIf (hit s.padding s.circles k) c) := by
  have M := collisionLoops_masked s.padding s.circles
  unfold handleCircleCollisions
  simp only
  rw [M.2 k, h]
  rfl

theorem mouseStep_same [Rounding] (sqrt : ℚ → ℚ) (x y blobRadius forceFactor : JSNum) (c : Circle) :
    (mouseStep sqrt x y blobRadius forceFactor c).x = c.x ∧
      (mouseStep sqrt x y blobRadius forceFactor c).y = c.y ∧
      (mouseStep sqrt x y blobRadius forceFactor c).radius = c.radius ∧
      (mouseStep sqrt x y blobRadius forceFactor c).growing = c.growing := by
  unfold mouseStep
  simp only
  split <;> exact ⟨rfl, rfl, rfl, rfl⟩

theorem updateMouseEvents_getElem? [Rounding] (sqrt : ℚ → ℚ) (s : CirclePacking) (k : ℕ) (c : Circle)
    (h : s.circles[k]? = some c) :
    ∃ c', (s.updateMouseEvents sqrt).circles[k]? = some c' ∧ c'.x = c.x ∧ c'.y = c.y ∧
      c'.radius = c.radius ∧ c'.growing = c.growing := by
  unfold updateMouseEvents
  split
  · refine ⟨mouseStep sqrt s.mouse_x s.mouse_y s.blobRadius s.forceFactor c, ?_,
      mouseStep_same sqrt _ _ _ _ c⟩
    simp only [List.getElem?_map, h, Option.map_some']
  · exact ⟨c, h, rfl, rfl, rfl, rfl⟩

theorem updateCircle_same [Rounding] (s : CirclePacking) (deltatime : JSNum) (c : Circle) :
    (s.updateCircle deltatime c).x = c.x ∧ (s.updateCircle deltatime c).y = c.y ∧
      (s.updateCircle deltatime c).radius = (c.update deltatime).radius ∧
      (c.growing = false → (s.updateCircle deltatime c).growing = false) := by
  unfold updateCircle
  simp only
  split
  · refine ⟨?_, ?_, rfl, fun _ => rfl⟩
    · simp only [Circle.stopGrowing, Circle.update, Circle.grow]; split <;> rfl
    · simp only [Circle.stopGrowing, Circle.update, Circle.grow]; split <;> rfl
  · refine ⟨?_, ?_, rfl, fun hg => ?_⟩
    · simp only [Circle.update, Circle.grow]; split <;> rfl
    · simp only [Circle.update, Circle.grow]; split <;> rfl
    · simp [Circle.update, Circle.grow, hg]

theorem freezeIf_same (b : Bool) (c : Circle) :
    (freezeIf b c).x = c.x ∧ (freezeIf b c).y = c.y ∧ (freezeIf b c).radius = c.radius ∧
      (c.growing = false → (freezeIf b c).growing = false) := by
  cases b
  · exact ⟨rfl, rfl, rfl, fun h => h⟩
  · exact ⟨rfl, rfl, rfl, fun _ => rfl⟩

/-- What `update(deltatime)` does to the circle at index `k`: it stays at index
`k`, keeps its anchor, has the radius that `Circle.update` gives it, and stays
frozen when it was frozen. -/
theorem update_getElem? [Rounding] (sqrt : ℚ → ℚ) (s : CirclePacking) (deltatime : JSNum)
    (rand : ℕ → ℚ) (k : ℕ) (c : Circle) (h : s.circles[k]? = some c) :
    ∃ c', (s.update sqrt deltatime rand).circles[k]? = some c' ∧ c'.x = c.x ∧ c'.y = c.y ∧
      c'.radius = (c.update deltatime).radius ∧ (c.growing = false → c'.growing = false) := by
  unfold update
  simp only
  have h1 : ({ s with circles := s.circles.map (s.updateCircle deltatime) } :
      CirclePacking).circles[k]? = some (s.updateCircle deltatime c) := by
    simp only [List.getElem?_map, h, Option.map_some']
  have h2 := addNewCircles_getElem? _ rand k _ h1
  have h3 := handleCircleCollisions_getElem? _ k _ h2
  generalize hit _ _ k = b at h3
  obtain ⟨c', h4, e1, e2, e3, e4⟩ := updateMouseEvents_getElem? sqrt _ k _ h3
  obtain ⟨u1, u2, u3, u4⟩ := updateCircle_same s deltatime c
  obtain ⟨f1, f2, f3, f4⟩ := freezeIf_same b (s.updateCircle deltatime c)
  refine ⟨c', h4, ?_, ?_, ?_, ?_⟩
  · rw [e1, f1, u1]
  · rw [e2, f2, u2]
  · rw [e3, f3, u3]
  · intro hg
    rw [e4]
    exact f4 (u4 hg)

theorem tick_getElem? [Rounding] (sqrt : ℚ → ℚ) (s : CirclePacking) (inp : TickInput) (k : ℕ)
    (c : Circle) (h : s.circles[k]? = some c) :
    ∃ c', (s.tick sqrt inp).circles[k]? = some c' ∧ c'.x = c.x ∧ c'.y = c.y ∧
      c'.radius = (c.update inp.deltatime).radius ∧
      (c.growing = false → c'.growing = false) :=
  update_getElem? sqrt _ inp.deltatime inp.rand k c h

theorem update_radius_growing (c : Circle) (r d : ℚ) (hr : c.radius = JSNum.num r)
    (hg : c.growing = true) : (c.update (JSNum.num d)).radius = JSNum.num (r + d * 25) := by
  simp only [Circle.update, Circle.grow, hg, if_true, hr]
  rfl

theorem update_radius_frozen [Rounding] (c : Circle) (deltatime : JSNum) (hg : c.growing = false) :
    (c.update deltatime).radius = c.radius := by
  simp only [Circle.update, Circle.grow, hg]
  rfl

/-- Over a sequence of frames with non-negative elapsed times the radius of a
circle does not decrease, and it stays the same when the circle was frozen. -/
theorem run_radius (sqrt : ℚ → ℚ) (inputs : List TickInput) :
    ∀ (s : CirclePacking) (k : ℕ) (c : Circle) (r : ℚ), s.circles[k]? = some c →
      c.radius = JSNum.num r →
      (∀ inp ∈ inputs, ∃ d : ℚ, inp.deltatime = JSNum.num d ∧ 0 ≤ d) →
      ∃ c' r', (s.run sqrt inputs).circles[k]? = some c' ∧ c'.radius = JSNum.num r' ∧
        r ≤ r' ∧ (c.growing = false → r' = r ∧ c'.growing = false) := by
  induction inputs with
  | nil =>
    intro s k c r h hr _
    exact ⟨c, r, h, hr, le_refl _, fun hg => ⟨rfl, hg⟩⟩
  | cons inp inputs ih =>
    intro s k c r h hr hall
    obtain ⟨d, hd, hd0⟩ := hall inp (List.mem_cons_self _ _)
    obtain ⟨c1, h1, -, -, hrad, hgrow⟩ := tick_getElem? sqrt s inp k c h
    rw [hd] at hrad
    cases hg : c.growing with
    | true =>
      rw [update_radius_growing c r d hr hg] at hrad
      obtain ⟨c', r', h2, hr', hle, -⟩ := ih (s.tick sqrt inp) k c1 (r + d * 25) h1 hrad
        (fun i hi => hall i (List.mem_cons_of_mem _ hi))
      refine ⟨c', r', h2, hr', ?_, fun hf => ?_⟩
      · have : 0 ≤ d * 25 := by positivity
        linarith
      · simp at hf
    | false =>
      rw [update_radius_frozen c _ hg, hr] at hrad
      obtain ⟨c', r', h2, hr', hle, hfro⟩ := ih (s.tick sqrt inp) k c1 r h1 hrad
        (fun i hi => hall i (List.mem_cons_of_mem _ hi))
      exact ⟨c', r', h2, hr', hle, fun _ => hfro (hgrow hg)⟩

end CirclePacking

/-! ## The number of circles -/

namespace CirclePacking

theorem addNewCircles_length [Rounding] (s : CirclePacking) (rand : ℕ → ℚ) :
    (s.addNewCircles rand).maxCircles = s.maxCircles ∧
      (s.maxCircles ≤ s.circles.length → s.addNewCircles rand = s) ∧
      (s.circles.length ≤ s.maxCircles + 99 →
        (s.addNewCircles rand).circles.length ≤ s.maxCircles + 99) := by
  refine ⟨?_, ?_, ?_⟩
  · obtain ⟨added, fin, h1, -, -⟩ := addNewCircles_spec s rand
    rw [h1]
  · intro hge
    unfold addNewCircles
    have : ¬ s.circles.length < s.maxCircles := by omega
    simp [this]
  · intro hle
    by_cases hlt : s.circles.length < s.maxCircles
    · obtain ⟨added, fin, h1, -, h3⟩ := addNewCircles_spec s rand
      rw [h1]
      simp only [List.length_append]
      omega
    · unfold addNewCircles
      simp [hlt, hle]

theorem update_length [Rounding] (sqrt : ℚ → ℚ) (s : CirclePacking) (deltatime : JSNum)
    (rand : ℕ → ℚ) :
    (s.update sqrt deltatime rand).maxCircles = s.maxCircles ∧
      (s.circles.length ≤ s.maxCircles + 99 →
        (s.update sqrt deltatime rand).circles.length ≤ s.maxCircles + 99) := by
  have hadd := addNewCircles_length
    { s with circles := s.circles.map (s.updateCircle deltatime) } rand
  simp only [List.length_map] at hadd
  obtain ⟨a1, -, a3⟩ := hadd
  have M := collisionLoops_masked
    (({ s with circles := s.circles.map (s.updateCircle deltatime) } :
      CirclePacking).addNewCircles rand).padding
    (({ s with circles := s.circles.map (s.updateCircle deltatime) } :
      CirclePacking).addNewCircles rand).circles
  unfold update updateMouseEvents handleCircleCollisions
  simp only
  constructor
  · split <;> exact a1
  · intro hle
    split
    · simp only [List.length_map]
      rw [M.1]
      exact a3 hle
    · simp only
      rw [M.1]
      exact a3 hle

theorem run_length [Rounding] (sqrt : ℚ → ℚ) (inputs : List TickInput) :
    ∀ s : CirclePacking, s.circles.length ≤ s.maxCircles + 99 →
      (s.run sqrt inputs).maxCircles = s.maxCircles ∧
        (s.run sqrt inputs).circles.length ≤ s.maxCircles + 99 := by
  induction inputs with
  | nil => intro s h; exact ⟨rfl, h⟩
  | cons inp inputs ih =>
    intro s h
    have hu := update_length sqrt
      { s with clicked := inp.clicked, mouse_x := inp.mouse_x, mouse_y := inp.mouse_y }
      inp.deltatime inp.rand
    simp only at hu
    have h' := ih (s.tick sqrt inp) (by
      unfold tick
      rw [hu.1]
      exact hu.2 h)
    have e : (s.tick sqrt inp).maxCircles = s.maxCircles := by
      unfold tick
      exact hu.1
    rw [e] at h'
    exact h'

end CirclePacking

/-! ## The pointer force: lemmas -/

namespace JSNum

theorem mul_nan [Rounding] (a : JSNum) : a.mul nan = nan := by
  cases a <;> rfl

theorem add_nan [Rounding] (a : JSNum) : a.add nan = nan := by
  cases a <;> rfl

end JSNum

namespace CirclePacking

/-- The test `d <= r * r` of `updateMouseEvents`, in exact arithmetic. -/
theorem mouseReach_iff (x y blobRadius : JSNum) (c : Circle) :
    (((c.curr_x.sub x).mul (c.curr_x.sub x)).add ((c.curr_y.sub y).mul (c.curr_y.sub y))).le
        ((blobRadius.add c.radius).mul (blobRadius.add c.radius)) = true ↔
      ∃ cx cy mx my β ρ : ℚ,
        c.curr_x.toNum = some cx ∧ c.curr_y.toNum = some cy ∧ x.toNum = some mx ∧
        y.toNum = some my ∧ blobRadius.toNum = some β ∧ c.radius.toNum = some ρ ∧
        (cx - mx) ^ 2 + (cy - my) ^ 2 ≤ (β + ρ) ^ 2 := by
  simp only [JSNum.le_eq_true_iff, JSNum.toNum_add, JSNum.toNum_mul, JSNum.toNum_sub]
  generalize c.curr_x.toNum = a1
  generalize c.curr_y.toNum = a2
  generalize x.toNum = a3
  generalize y.toNum = a4
  generalize blobRadius.toNum = a5
  generalize c.radius.toNum = a6
  rcases a1 with _ | a1
  · simp
  rcases a2 with _ | a2
  · simp
  rcases a3 with _ | a3
  · simp
  rcases a4 with _ | a4
  · simp
  rcases a5 with _ | a5
  · simp
  rcases a6 with _ | a6
  · simp
  simp [pow_two]

/-- Outside the reach of the pointer `mouseStep` returns the circle as it is. -/
theorem mouseStep_of_not_reached [Rounding] (sqrt : ℚ → ℚ) (x y blobRadius forceFactor : JSNum)
    (c : Circle)
    (h : (((c.curr_x.sub x).mul (c.curr_x.sub x)).add
        ((c.curr_y.sub y).mul (c.curr_y.sub y))).le
        ((blobRadius.add c.radius).mul (blobRadius.add c.radius)) = false) :
    mouseStep sqrt x y blobRadius forceFactor c = c := by
  unfold mouseStep
  simp only [h, Bool.false_eq_true, if_false]

/-- With the pointer exactly on the smoothed position of a circle, `mouseStep`
leaves `NaN` in both smoothed coordinates. -/
theorem mouseStep_on_centre (sqrt : ℚ → ℚ) (h0 : sqrt 0 = 0) (forceFactor : JSNum)
    (c : Circle) (a b ρ β : ℚ) (hcx : c.curr_x = JSNum.num a) (hcy : c.curr_y = JSNum.num b)
    (hr : c.radius = JSNum.num ρ) :
    (mouseStep sqrt (JSNum.num a) (JSNum.num b) (JSNum.num β) forceFactor c).curr_x
        = JSNum.nan ∧
      (mouseStep sqrt (JSNum.num a) (JSNum.num b) (JSNum.num β) forceFactor c).curr_y
        = JSNum.nan := by
  have hreach : (((c.curr_x.sub (JSNum.num a)).mul (c.curr_x.sub (JSNum.num a))).add
      ((c.curr_y.sub (JSNum.num b)).mul (c.curr_y.sub (JSNum.num b)))).le
      (((JSNum.num β).add c.radius).mul ((JSNum.num β).add c.radius)) = true := by
    rw [mouseReach_iff]
    refine ⟨a, b, a, b, β, ρ, by rw [hcx]; rfl, by rw [hcy]; rfl, rfl, rfl, rfl,
      by rw [hr]; rfl, ?_⟩
    simp only [sub_self, ne_eq, OfNat.ofNat_ne_zero, not_false_eq_true, zero_pow, add_zero]
    positivity
  have hd : ((c.curr_x.sub (JSNum.num a)).mul (c.curr_x.sub (JSNum.num a))).add
      ((c.curr_y.sub (JSNum.num b)).mul (c.curr_y.sub (JSNum.num b))) = JSNum.num 0 := by
    rw [hcx, hcy]
    simp [JSNum.sub, JSNum.mul, JSNum.add, JSNum.toNum]
  have hdist : (JSNum.num 0).sqrt sqrt = JSNum.num 0 := by
    simp [JSNum.sqrt, JSNum.toNum, h0]
  have hnx : (c.curr_x.sub (JSNum.num a)).div (JSNum.num 0) = JSNum.nan := by
    rw [hcx]
    simp [JSNum.sub, JSNum.div, JSNum.toNum]
  have hny : (c.curr_y.sub (JSNum.num b)).div (JSNum.num 0) = JSNum.nan := by
    rw [hcy]
    simp [JSNum.sub, JSNum.div, JSNum.toNum]
  rw [hd] at hreach
  unfold mouseStep
  simp only [hd, hreach, if_true, hdist, hnx, hny, JSNum.mul_nan, JSNum.add_nan, and_self]

end CirclePacking

/-! ## Smoothing, anchors and the window: lemmas -/

namespace CirclePacking

/-- One `Circle.update` on a circle with `ease = 20`, for the smoothed position. -/
theorem update_smoothed (c : Circle) (deltatime : JSNum) (X Y CX CY : ℚ)
    (hx : c.x = JSNum.num X) (hy : c.y = JSNum.num Y) (hcx : c.curr_x = JSNum.num CX)
    (hcy : c.curr_y = JSNum.num CY) (hease : c.ease = 20) :
    (c.update deltatime).x = c.x ∧ (c.update deltatime).y = c.y ∧
      (c.update deltatime).ease = c.ease ∧
      (c.update deltatime).curr_x = JSNum.num (CX + (X - CX) / 20) ∧
      (c.update deltatime).curr_y = JSNum.num (CY + (Y - CY) / 20) := by
  have e20 : (20 : JSNum) = JSNum.num 20 := rfl
  unfold Circle.update Circle.grow
  split
  · simp [hx, hy, hcx, hcy, hease, e20, JSNum.add, JSNum.sub, JSNum.div, JSNum.toNum]
  · simp [hx, hy, hcx, hcy, hease, e20, JSNum.add, JSNum.sub, JSNum.div, JSNum.toNum]

/-- After any number of calls of `Circle.update`, the offset of the smoothed
position from the anchor is the initial one times `(19/20)^n`. -/
theorem updates_smoothed (dts : List JSNum) :
    ∀ (c : Circle) (X Y CX CY : ℚ), c.x = JSNum.num X → c.y = JSNum.num Y →
      c.curr_x = JSNum.num CX → c.curr_y = JSNum.num CY → c.ease = 20 →
      (dts.foldl Circle.update c).x = c.x ∧ (dts.foldl Circle.update c).y = c.y ∧
      ∃ CX' CY' : ℚ, (dts.foldl Circle.update c).curr_x = JSNum.num CX' ∧
        (dts.foldl Circle.update c).curr_y = JSNum.num CY' ∧
        X - CX' = (19 / 20) ^ dts.length * (X - CX) ∧
        Y - CY' = (19 / 20) ^ dts.length * (Y - CY) := by
  induction dts with
  | nil =>
    intro c X Y CX CY _ _ hcx hcy _
    exact ⟨rfl, rfl, CX, CY, hcx, hcy, by simp, by simp⟩
  | cons dt dts ih =>
    intro c X Y CX CY hx hy hcx hcy hease
    obtain ⟨u1, u2, u3, u4, u5⟩ := update_smoothed c dt X Y CX CY hx hy hcx hcy hease
    obtain ⟨i1, i2, CX', CY', i3, i4, i5, i6⟩ := ih (c.update dt) X Y
      (CX + (X - CX) / 20) (CY + (Y - CY) / 20) (by rw [u1, hx]) (by rw [u2, hy]) u4 u5
      (by rw [u3, hease])
    simp only [List.foldl_cons, List.length_cons]
    refine ⟨by rw [i1, u1], by rw [i2, u2], CX', CY', i3, i4, ?_, ?_⟩
    · rw [i5]; ring
    · rw [i6]; ring

theorem Masked.map_anchor {circles circles' : List Circle} {m : ℕ → Bool}
    (h : Masked circles circles' m) : circles'.map anchor = circles.map anchor := by
  apply List.ext_getElem?
  intro k
  rw [List.getElem?_map, List.getElem?_map, h.2 k]
  cases circles[k]? with
  | none => rfl
  | some c => cases hm : m k <;> simp [freezeIf, anchor, Circle.stopGrowing]

theorem anchor_updateCircle [Rounding] (s : CirclePacking) (deltatime : JSNum) (c : Circle) :
    anchor (s.updateCircle deltatime c) = anchor c := by
  obtain ⟨h1, h2, -, -⟩ := updateCircle_same s deltatime c
  simp only [anchor, h1, h2]

theorem anchor_mouseStep [Rounding] (sqrt : ℚ → ℚ) (x y blobRadius forceFactor : JSNum) (c : Circle) :
    anchor (mouseStep sqrt x y blobRadius forceFactor c) = anchor c := by
  obtain ⟨h1, h2, -, -⟩ := mouseStep_same sqrt x y blobRadius forceFactor c
  simp only [anchor, h1, h2]

theorem updateMouseEvents_anchors [Rounding] (sqrt : ℚ → ℚ) (s : CirclePacking) :
    (s.updateMouseEvents sqrt).circles.map anchor = s.circles.map anchor ∧
      (s.updateMouseEvents sqrt).finished = s.finished := by
  unfold updateMouseEvents
  split
  · refine ⟨?_, rfl⟩
    simp only [List.map_map]
    apply List.map_congr_left
    intro c _
    exact anchor_mouseStep sqrt _ _ _ _ c
  · exact ⟨rfl, rfl⟩

/-- The anchors after `update(deltatime)`: the anchors before it, in the same
order, followed by those of the circles that `addNewCircles` appended; and the
flag `finished` is the one that `addNewCircles` left. -/
theorem update_anchors [Rounding] (sqrt : ℚ → ℚ) (s : CirclePacking) (deltatime : JSNum)
    (rand : ℕ → ℚ) :
    ∃ (added : List Circle) (fin : Bool),
      (s.update sqrt deltatime rand).circles.map anchor
        = s.circles.map anchor ++ added.map anchor ∧
      (s.update sqrt deltatime rand).finished = fin ∧
      ({ s with circles := s.circles.map (s.updateCircle deltatime) } :
          CirclePacking).addNewCircles rand
        = { s with circles := s.circles.map (s.updateCircle deltatime) ++ added
                   finished := fin } := by
  obtain ⟨added, fin, h1, -, -⟩ := addNewCircles_spec
    { s with circles := s.circles.map (s.updateCircle deltatime) } rand
  refine ⟨added, fin, ?_, ?_, h1⟩
  · unfold update
    simp only
    rw [(updateMouseEvents_anchors sqrt _).1]
    unfold handleCircleCollisions
    simp only
    rw [(collisionLoops_masked _ _).map_anchor, h1]
    simp only [List.map_append, List.map_map]
    congr 1
    apply List.map_congr_left
    intro c _
    exact anchor_updateCircle s deltatime c
  · unfold update
    simp only
    rw [(updateMouseEvents_anchors sqrt _).2]
    unfold handleCircleCollisions
    simp only
    rw [h1]

/-- A finished engine stays finished through `update(deltatime)` and gets no new
circle. -/
theorem update_finished [Rounding] (sqrt : ℚ → ℚ) (s : CirclePacking) (deltatime : JSNum)
    (rand : ℕ → ℚ) (hfin : s.finished = true) :
    (s.update sqrt deltatime rand).finished = true ∧
      (s.update sqrt deltatime rand).circles.length = s.circles.length := by
  obtain ⟨added, fin, h1, h2, h3⟩ := update_anchors sqrt s deltatime rand
  have hno : ({ s with circles := s.circles.map (s.updateCircle deltatime) } :
      CirclePacking).addNewCircles rand
      = { s with circles := s.circles.map (s.updateCircle deltatime) } := by
    unfold addNewCircles
    simp [hfin]
  rw [hno] at h3
  have hf : fin = true := by
    have := congrArg CirclePacking.finished h3
    simp only at this
    rw [← this, hfin]
  have hl : added = [] := by
    have := congrArg (fun t => t.circles.length) h3
    simp only [List.length_append, List.length_map] at this
    exact List.eq_nil_of_length_eq_zero (by omega)
  refine ⟨by rw [h2, hf], ?_⟩
  have := congrArg List.length h1
  simpa [hl] using this

theorem run_finished [Rounding] (sqrt : ℚ → ℚ) (inputs : List TickInput) :
    ∀ s : CirclePacking, s.finished = true →
      (s.run sqrt inputs).finished = true ∧
        (s.run sqrt inputs).circles.length = s.circles.length := by
  induction inputs with
  | nil => intro s h; exact ⟨h, rfl⟩
  | cons inp inputs ih =>
    intro s h
    have hu := update_finished sqrt
      { s with clicked := inp.clicked, mouse_x := inp.mouse_x, mouse_y := inp.mouse_y }
      inp.deltatime inp.rand h
    have h' := ih (s.tick sqrt inp) hu.1
    refine ⟨h'.1, ?_⟩
    have e : (s.tick sqrt inp).circles.length = s.circles.length := hu.2
    rw [← e]
    exact h'.2

theorem floor_hundredth (n : ℕ) : ⌊(n : ℚ) * (1 / 100)⌋.toNat = n / 100 := by
  have e : (n : ℚ) * (1 / 100) = ((n : ℤ) : ℚ) / ((100 : ℕ) : ℚ) := by push_cast; ring
  rw [e, Rat.floor_intCast_div_natCast]
  omega

/-- The test of `isOutsideWindow` on a circle and a window that are numbers. -/
theorem isOutsideWindow_iff (c : Circle) (X Y R W H P : ℚ) (hx : c.x = JSNum.num X)
    (hy : c.y = JSNum.num Y) (hr : c.radius = JSNum.num R) :
    c.isOutsideWindow (JSNum.num W) (JSNum.num H) (JSNum.num P) = true ↔
      X - R - P < 0 ∨ X + R + P > W ∨ Y - R - P < 0 ∨ Y + R + P > H := by
  have e0 : (0 : JSNum) = JSNum.num 0 := rfl
  simp [Circle.isOutsideWindow, hx, hy, hr, e0, JSNum.lt, JSNum.gt, JSNum.sub, JSNum.add,
    JSNum.toNum, or_assoc]

/-- What `update(deltatime)` does to the circle at index `k`, with the flag that
the first loop of `update` leaves. -/
theorem update_getElem?_frozen [Rounding] (sqrt : ℚ → ℚ) (s : CirclePacking) (deltatime : JSNum)
    (rand : ℕ → ℚ) (k : ℕ) (c : Circle) (h : s.circles[k]? = some c) :
    ∃ c', (s.update sqrt deltatime rand).circles[k]? = some c' ∧ c'.x = c.x ∧ c'.y = c.y ∧
      c'.radius = (c.update deltatime).radius ∧
      ((s.updateCircle deltatime c).growing = false → c'.growing = false) := by
  unfold update
  simp only
  have h1 : ({ s with circles := s.circles.map (s.updateCircle deltatime) } :
      CirclePacking).circles[k]? = some (s.updateCircle deltatime c) := by
    simp only [List.getElem?_map, h, Option.map_some']
  have h2 := addNewCircles_getElem? _ rand k _ h1
  have h3 := handleCircleCollisions_getElem? _ k _ h2
  generalize hit _ _ k = b at h3
  obtain ⟨c', h4, e1, e2, e3, e4⟩ := updateMouseEvents_getElem? sqrt _ k _ h3
  obtain ⟨u1, u2, u3, -⟩ := updateCircle_same s deltatime c
  obtain ⟨f1, f2, f3, f4⟩ := freezeIf_same b (s.updateCircle deltatime c)
  refine ⟨c', h4, ?_, ?_, ?_, ?_⟩
  · rw [e1, f1, u1]
  · rw [e2, f2, u2]
  · rw [e3, f3, u3]
  · intro hg
    rw [e4]
    exact f4 hg

end CirclePacking

/-! ## Collisions and placement together: lemmas -/

namespace CirclePacking

theorem getElem?_lt_length {α : Type} (l : List α) (k : ℕ) (a : α) (h : l[k]? = some a) :
    k < l.length := by
  by_contra hge
  rw [List.getElem?_eq_none (by omega)] at h
  exact Option.noConfusion h

theorem collidesAt_eq_true_iff [Rounding] (padding : JSNum) (circles : List Circle) (i j : ℕ) :
    collidesAt padding circles i j = true ↔
      ∃ a b, circles[i]? = some a ∧ circles[j]? = some b ∧ collides padding a b = true := by
  unfold collidesAt
  cases circles[i]? <;> cases circles[j]? <;> simp

theorem strictlyOverlap_iff [Rounding] (padding : JSNum) (a b : Circle) :
    StrictlyOverlap padding a b ↔ collides padding a b = true := Iff.rfl

theorem hit_iff_inCollidingPair [Rounding] (padding : JSNum) (circles : List Circle) (k : ℕ) :
    hit padding circles k = true ↔ InCollidingPair padding circles k := by
  rw [hit_iff]
  unfold InCollidingPair
  constructor
  · rintro ⟨i, j, hij, -, hk, hc⟩
    obtain ⟨a, b, ha, hb, hab⟩ := (collidesAt_eq_true_iff padding circles i j).1 hc
    exact ⟨i, j, a, b, hij, hk, ha, hb, (strictlyOverlap_iff padding a b).2 hab⟩
  · rintro ⟨i, j, a, b, hij, hk, ha, hb, hab⟩
    exact ⟨i, j, hij, getElem?_lt_length circles j b hb, hk,
      (collidesAt_eq_true_iff padding circles i j).2
        ⟨a, b, ha, hb, (strictlyOverlap_iff padding a b).1 hab⟩⟩

/-- A pair that passes the collision test also passes the placement test, the
second circle being the candidate. -/
theorem overlapsWith_of_collides [Rounding] (padding : JSNum) (a b : Circle)
    (h : collides padding a b = true) : overlapsWith padding b.x b.y b.radius a = true := by
  unfold collides at h
  unfold overlapsWith
  simp only at h ⊢
  rw [JSNum.add_swap b.radius a.radius]
  exact JSNum.le_of_lt_eq_true _ _ h

/-- A circle placed by `addNewCircles` fails the collision test with every
circle that precedes it in the list. -/
theorem PlacedOk_pairs [Rounding] (padding : JSNum) :
    ∀ (added old : List Circle), PlacedOk padding old added →
      ∀ (i j : ℕ) (a b : Circle), i < j → old.length ≤ j →
        (old ++ added)[i]? = some a → (old ++ added)[j]? = some b →
        collides padding a b = false ∧ b.growing = true := by
  intro added
  induction added with
  | nil =>
    intro old _ i j a b _ hj _ hb
    rw [List.append_nil, List.getElem?_eq_none hj] at hb
    exact Option.noConfusion hb
  | cons c rest ih =>
    intro old hok i j a b hij hj ha hb
    by_cases hje : j = old.length
    · subst hje
      rw [List.getElem?_append_right (le_refl _)] at hb
      simp only [Nat.sub_self, List.getElem?_cons_zero, Option.some.injEq] at hb
      subst hb
      rw [List.getElem?_append_left hij] at ha
      have hmem : a ∈ old := List.getElem?_mem ha
      have hno := (isCircleOverlapping_eq_false_iff old padding c.x c.y Circle.startRadius).1
        hok.1.2 a hmem
      have hrad : c.radius = Circle.startRadius := by rw [hok.1.1]; rfl
      have hgrow : c.growing = true := by rw [hok.1.1]; rfl
      refine ⟨?_, hgrow⟩
      by_contra hcol
      have := overlapsWith_of_collides padding a c (by simpa using hcol)
      rw [hrad] at this
      have e : Circle.startRadius.orDefault Circle.startRadius = Circle.startRadius := rfl
      rw [e] at hno
      rw [hno] at this
      exact Bool.noConfusion this
    · have e : old ++ c :: rest = (old ++ [c]) ++ rest := by simp
      rw [e] at ha hb
      exact ih (old ++ [c]) hok.2 i j a b hij (by simp; omega) ha hb

/-- The circles that `addNewCircles` appended do not change which circles the
collision loops freeze. -/
theorem hit_append [Rounding] (padding : JSNum) (old added : List Circle)
    (hok : PlacedOk padding old added) (k : ℕ) :
    hit padding (old ++ added) k = (decide (k < old.length) && hit padding old k) := by
  rw [Bool.eq_iff_iff]
  simp only [Bool.and_eq_true, decide_eq_true_eq, hit_iff]
  constructor
  · rintro ⟨i, j, hij, hj, hk, hc⟩
    obtain ⟨a, b, ha, hb, hab⟩ := (collidesAt_eq_true_iff _ _ i j).1 hc
    have hjold : j < old.length := by
      by_contra hge
      have := (PlacedOk_pairs padding added old hok i j a b hij (by omega) ha hb).1
      rw [this] at hab
      exact Bool.noConfusion hab
    rw [List.getElem?_append_left (by omega)] at ha
    rw [List.getElem?_append_left hjold] at hb
    refine ⟨by omega, i, j, hij, hjold, hk, ?_⟩
    exact (collidesAt_eq_true_iff _ _ i j).2 ⟨a, b, ha, hb, hab⟩
  · rintro ⟨-, i, j, hij, hj, hk, hc⟩
    obtain ⟨a, b, ha, hb, hab⟩ := (collidesAt_eq_true_iff _ _ i j).1 hc
    refine ⟨i, j, hij, by simp only [List.length_append]; omega, hk, ?_⟩
    refine (collidesAt_eq_true_iff _ _ i j).2 ⟨a, b, ?_, ?_, hab⟩
    · rw [List.getElem?_append_left (by omega)]; exact ha
    · rw [List.getElem?_append_left hj]; exact hb

theorem collisionLoops_append [Rounding] (padding : JSNum) (old added : List Circle)
    (hok : PlacedOk padding old added) :
    collisionLoops padding (old ++ added) = collisionLoops padding old ++ added := by
  have M := collisionLoops_masked padding (old ++ added)
  have M0 := collisionLoops_masked padding old
  apply List.ext_getElem?
  intro k
  rw [M.2 k, hit_append padding old added hok k]
  by_cases hk : k < old.length
  · rw [List.getElem?_append_left hk, List.getElem?_append_left (by rw [M0.1]; exact hk),
      M0.2 k]
    simp [hk]
  · rw [List.getElem?_append_right (by omega),
      List.getElem?_append_right (by rw [M0.1]; omega), M0.1]
    simp only [hk, decide_False, Bool.false_and]
    cases added[k - old.length]? <;> simp [freezeIf]

end CirclePacking

/-! ## Rounded arithmetic: lemmas -/

namespace JSNum

/-- With a rounding function that commutes with negation, `|a - b|` and `|b - a|`
are the same number. -/
theorem abs_sub_swap [Rounding] (hneg : ∀ q : ℚ, Rounding.rnd (-q) = -Rounding.rnd q)
    (a b : JSNum) : (a.sub b).abs = (b.sub a).abs := by
  cases a <;> cases b <;> simp [sub, abs, toNum]
  rename_i p q
  rw [← neg_sub q p, hneg, abs_neg]

end JSNum

namespace CirclePacking

theorem collides_swap [Rounding] (hneg : ∀ q : ℚ, Rounding.rnd (-q) = -Rounding.rnd q)
    (padding : JSNum) (a b : Circle) : collides padding a b = collides padding b a := by
  unfold collides
  simp only
  rw [JSNum.abs_sub_swap hneg a.x b.x, JSNum.abs_sub_swap hneg a.y b.y,
    JSNum.add_swap a.radius b.radius]

/-- The test of `isOutsideWindow` on numbers, every operation rounding. -/
theorem isOutsideWindow_rounded [Rounding] (c : Circle) (X Y R W H P : ℚ)
    (hx : c.x = JSNum.num X) (hy : c.y = JSNum.num Y) (hr : c.radius = JSNum.num R) :
    c.isOutsideWindow (JSNum.num W) (JSNum.num H) (JSNum.num P) = true ↔
      Rounding.rnd (Rounding.rnd (X - R) - P) < 0 ∨
      Rounding.rnd (Rounding.rnd (X + R) + P) > W ∨
      Rounding.rnd (Rounding.rnd (Y - R) - P) < 0 ∨
      Rounding.rnd (Rounding.rnd (Y + R) + P) > H := by
  have e0 : (0 : JSNum) = JSNum.num 0 := rfl
  simp [Circle.isOutsideWindow, hx, hy, hr, e0, JSNum.lt, JSNum.gt, JSNum.sub, JSNum.add,
    JSNum.toNum, or_assoc]

/-- A box whose four computed sides are exactly on the edges of the window is
not outside. -/
theorem isOutsideWindow_touching [Rounding] (c : Circle) (W H : ℚ) (padding : JSNum)
    (h1 : (c.x.sub c.radius).sub padding = JSNum.num 0)
    (h2 : (c.x.add c.radius).add padding = JSNum.num W)
    (h3 : (c.y.sub c.radius).sub padding = JSNum.num 0)
    (h4 : (c.y.add c.radius).add padding = JSNum.num H) :
    c.isOutsideWindow (JSNum.num W) (JSNum.num H) padding = false := by
  have e0 : (0 : JSNum) = JSNum.num 0 := rfl
  simp [Circle.isOutsideWindow, h1, h2, h3, h4, e0, JSNum.lt, JSNum.gt, JSNum.toNum]

/-- The test of `isCircleOverlapping` on numbers, every operation rounding. -/
theorem overlapsWith_rounded [Rounding] (c : Circle) (cx cy cr xq yq rq pq : ℚ)
    (hx : c.x = JSNum.num cx) (hy : c.y = JSNum.num cy) (hr : c.radius = JSNum.num cr) :
    overlapsWith (JSNum.num pq) (JSNum.num xq) (JSNum.num yq) (JSNum.num rq) c = true ↔
      Rounding.rnd
          (Rounding.rnd (Rounding.rnd (|Rounding.rnd (cx - xq)| - pq) *
              Rounding.rnd (|Rounding.rnd (cx - xq)| - pq)) +
            Rounding.rnd (Rounding.rnd (|Rounding.rnd (cy - yq)| - pq) *
              Rounding.rnd (|Rounding.rnd (cy - yq)| - pq))) ≤
        Rounding.rnd (Rounding.rnd (rq + cr) * Rounding.rnd (rq + cr)) := by
  simp [overlapsWith, hx, hy, hr, JSNum.le, JSNum.sub, JSNum.add, JSNum.mul, JSNum.abs,
    JSNum.toNum]

/-- The attempts of the loop of `addNewCircles`, one after the other: while the
counter cannot reach `maxAttempts` before the loop ends, the loop makes `n`
attempts, each one on the list extended by the circles placed before it, and
appends every circle that an attempt returns. -/
theorem addNewCirclesLoop_results [Rounding] (rand : ℕ → ℚ) (n : ℕ) :
    ∀ (i attempts : ℕ) (s : CirclePacking), attempts + n ≤ s.maxAttempts →
      ∃ results : List (Option Circle), results.length = n ∧
        (∀ (pre : List (Option Circle)) (r : Option Circle) (post : List (Option Circle)),
          results = pre ++ r :: post →
          r = createCircle { s with circles := s.circles ++ pre.reduceOption }
            (rand (i + pre.length))) ∧
        (addNewCirclesLoop rand n i attempts s).1
          = { s with circles := s.circles ++ results.reduceOption } ∧
        (addNewCirclesLoop rand n i attempts s).2 ≤ attempts + n ∧
        ((addNewCirclesLoop rand n i attempts s).2 = attempts + n ↔
          ∀ r ∈ results, r = none) := by
  induction n with
  | zero =>
    intro i attempts s _
    refine ⟨[], rfl, ?_, by simp [addNewCirclesLoop], by simp [addNewCirclesLoop],
      by simp [addNewCirclesLoop]⟩
    intro pre r post h
    simp at h
  | succ n ih =>
    intro i attempts s hle
    have hlt : attempts < s.maxAttempts := by omega
    cases hc : s.createCircle (rand i) with
    | none =>
      obtain ⟨results, h1, h2, h3, h4, h5⟩ := ih (i + 1) (attempts + 1) s (by omega)
      refine ⟨none :: results, by simp [h1], ?_, ?_, ?_, ?_⟩
      · intro pre r post hsplit
        cases pre with
        | nil =>
          simp only [List.nil_append, List.cons.injEq] at hsplit
          simp [← hsplit.1, hc]
        | cons p pre =>
          simp only [List.cons_append, List.cons.injEq] at hsplit
          obtain ⟨rfl, hrest⟩ := hsplit
          have := h2 pre r post hrest
          simp only [List.reduceOption_cons_of_none, List.length_cons]
          rw [show i + (pre.length + 1) = i + 1 + pre.length by omega]
          exact this
      · unfold addNewCirclesLoop
        simp only [hlt, if_true, hc, List.reduceOption_cons_of_none]
        exact h3
      · unfold addNewCirclesLoop
        simp only [hlt, if_true, hc]
        omega
      · unfold addNewCirclesLoop
        simp only [hlt, if_true, hc]
        rw [show attempts + (n + 1) = attempts + 1 + n by omega, h5]
        simp
    | some c =>
      obtain ⟨results, h1, h2, h3, h4, h5⟩ := ih (i + 1) 0
        { s with circles := s.circles ++ [c] } (by simpa using (by omega : n ≤ s.maxAttempts))
      refine ⟨some c :: results, by simp [h1], ?_, ?_, ?_, ?_⟩
      · intro pre r post hsplit
        cases pre with
        | nil =>
          simp only [List.nil_append, List.cons.injEq] at hsplit
          simp [← hsplit.1, hc]
        | cons p pre =>
          simp only [List.cons_append, List.cons.injEq] at hsplit
          obtain ⟨rfl, hrest⟩ := hsplit
          have := h2 pre r post hrest
          simp only [List.reduceOption_cons_of_some, List.length_cons]
          rw [show i + (pre.length + 1) = i + 1 + pre.length by omega]
          simpa using this
      · unfold addNewCirclesLoop
        simp only [hlt, if_true, hc, List.reduceOption_cons_of_some]
        rw [h3]
        simp
      · unfold addNewCirclesLoop
        simp only [hlt, if_true, hc]
        omega
      · unfold addNewCirclesLoop
        simp only [hlt, if_true, hc]
        constructor
        · intro heq
          omega
        · intro hall
          have := hall (some c) (List.mem_cons_self _ _)
          exact Option.noConfusion this

end CirclePacking

namespace CirclePacking

/-- One `Circle.update` on a circle with `ease = 20`, for the smoothed position,
every operation rounding. -/
theorem update_smoothed_rounded [Rounding] (c : Circle) (deltatime : JSNum)
    (X Y CX CY : ℚ) (hx : c.x = JSNum.num X) (hy : c.y = JSNum.num Y)
    (hcx : c.curr_x = JSNum.num CX) (hcy : c.curr_y = JSNum.num CY) (hease : c.ease = 20) :
    (c.update deltatime).x = c.x ∧ (c.update deltatime).y = c.y ∧
      (c.update deltatime).curr_x
        = JSNum.num (Rounding.rnd (CX + Rounding.rnd (Rounding.rnd (X - CX) / 20))) ∧
      (c.update deltatime).curr_y
        = JSNum.num (Rounding.rnd (CY + Rounding.rnd (Rounding.rnd (Y - CY) / 20))) := by
  have e20 : (20 : JSNum) = JSNum.num 20 := rfl
  unfold Circle.update Circle.grow
  split
  · simp [hx, hy, hcx, hcy, hease, e20, JSNum.add, JSNum.sub, JSNum.div, JSNum.toNum]
  · simp [hx, hy, hcx, hcy, hease, e20, JSNum.add, JSNum.sub, JSNum.div, JSNum.toNum]

end CirclePacking

/-! ## The rounding of doubles: lemmas and evaluations -/

theorem roundBinary64_zero : roundBinary64 0 = 0 := by
  simp [roundBinary64]

/-- Rounding to the nearest double commutes with negation. -/
theorem roundBinary64_neg (q : ℚ) : roundBinary64 (-q) = -roundBinary64 q := by
  unfold roundBinary64
  rcases lt_trichotomy q 0 with h | h | h
  · have h1 : ¬ (-q < 0) := by linarith
    have h2 : -q ≠ 0 := by intro h0; have h3 : q = 0 := neg_eq_zero.mp h0; linarith
    have h3 : q ≠ 0 := ne_of_lt h
    simp [h, h1, h2, h3]
  · subst h; simp
  · have h1 : (-q < 0) := by linarith
    have h2 : -q ≠ 0 := by intro h0; have h3 : q = 0 := neg_eq_zero.mp h0; linarith
    have h3 : q ≠ 0 := ne_of_gt h
    have h4 : ¬ q < 0 := by linarith
    simp [h1, h2, h3, h4]

/-- With doubles, `1 + (4 - 2^-51)` rounds to 5, and the candidate (7, 2) of radius
1 overlaps the circle of radius `4 - 2^-51` at (0, 0) (25 <= 25); without rounding
it does not. -/
theorem binary64_isCircleOverlapping_example :
    @isCircleOverlapping Rounding.binary64
        [Circle.new 0 0 (JSNum.num (4 - 1 / 2 ^ 51))] 2 7 2 (JSNum.num 1) = true ∧
    @isCircleOverlapping Rounding.exact
        [Circle.new 0 0 (JSNum.num (4 - 1 / 2 ^ 51))] 2 7 2 (JSNum.num 1) = false := by
  decide!

/-- With doubles, `(3 + 2^-51) + 1` rounds to 4, and the circles of radius
`3 + 2^-51` at (0, 0) and 1 at (6, 2) do not collide (16 < 16 is false); without
rounding they do. -/
theorem binary64_collides_example :
    @CirclePacking.collides Rounding.binary64 2
        (Circle.new 0 0 (JSNum.num (3 + 1 / 2 ^ 51))) (Circle.new 6 2 (JSNum.num 1)) = false ∧
    @CirclePacking.collides Rounding.exact 2
        (Circle.new 0 0 (JSNum.num (3 + 1 / 2 ^ 51))) (Circle.new 6 2 (JSNum.num 1)) = true := by
  decide!

/-- With doubles, `5 - (1 + 2^-52)` rounds to 4, and the circle of radius
`1 + 2^-52` at (5, 100) is not outside the window for a padding of 4 (0 < 0 is
false); without rounding it is. -/
theorem binary64_isOutsideWindow_example :
    @Circle.isOutsideWindow Rounding.binary64
        (Circle.new 5 100 (JSNum.num (1 + 1 / 2 ^ 52))) 1000 1000 4 = false ∧
    @Circle.isOutsideWindow Rounding.exact
        (Circle.new 5 100 (JSNum.num (1 + 1 / 2 ^ 52))) 1000 1000 4 = true := by
  decide!

/-! ## The claims -/

/-- C1: `isCircleOverlapping(x, y, radius)` returns true if and only if some circle
`c` of the list satisfies
`(|c.x - x| - padding)^2 + (|c.y - y| - padding)^2 <= (radius + c.radius)^2`,
evaluated as the code evaluates it: with the operations of JavaScript numbers,
each of which rounds, and a comparison that is false on `NaN`; it returns false
on the empty list.  The last part writes the test out on numbers, the rounding of
every operation shown. -/
theorem C1_isCircleOverlapping_iff [Rounding] (circles : List Circle)
    (padding x y radius : JSNum) (hradius : radius ≠ JSNum.undefined) :
    (isCircleOverlapping circles padding x y radius = true ↔
      ∃ c ∈ circles,
        (((((c.x.sub x).abs).sub padding).mul (((c.x.sub x).abs).sub padding)).add
            ((((c.y.sub y).abs).sub padding).mul (((c.y.sub y).abs).sub padding))).le
          ((radius.add c.radius).mul (radius.add c.radius)) = true) ∧
    isCircleOverlapping [] padding x y radius = false ∧
    (∀ (c : Circle) (cx cy cr xq yq rq pq : ℚ), c.x = JSNum.num cx → c.y = JSNum.num cy →
      c.radius = JSNum.num cr →
      (isCircleOverlapping [c] (JSNum.num pq) (JSNum.num xq) (JSNum.num yq) (JSNum.num rq)
          = true ↔
        Rounding.rnd
            (Rounding.rnd (Rounding.rnd (|Rounding.rnd (cx - xq)| - pq) *
                Rounding.rnd (|Rounding.rnd (cx - xq)| - pq)) +
              Rounding.rnd (Rounding.rnd (|Rounding.rnd (cy - yq)| - pq) *
                Rounding.rnd (|Rounding.rnd (cy - yq)| - pq))) ≤
          Rounding.rnd (Rounding.rnd (rq + cr) * Rounding.rnd (rq + cr)))) := by
  refine ⟨?_, rfl, ?_⟩
  · unfold isCircleOverlapping
    rw [orDefault_of_ne_undefined _ _ hradius, isCircleOverlappingLoop_iff]
    rfl
  · intro c cx cy cr xq yq rq pq hx hy hr
    rw [← CirclePacking.overlapsWith_rounded c cx cy cr xq yq rq pq hx hy hr]
    simp [isCircleOverlapping, isCircleOverlappingLoop, JSNum.orDefault]

/-- C1, at a concrete input: a circle of radius 3 anchored at (0, 0), the
candidate point (5, 4), radius 1 and padding 2. -/
theorem C1_isCircleOverlapping_iff_witness :
    (JSNum.num 1 ≠ JSNum.undefined) ∧
    (isCircleOverlapping [Circle.new 0 0 3] 2 5 4 (JSNum.num 1) = true ↔
      ∃ c ∈ [Circle.new 0 0 3],
        (((((c.x.sub 5).abs).sub 2).mul (((c.x.sub 5).abs).sub 2)).add
            ((((c.y.sub 4).abs).sub 2).mul (((c.y.sub 4).abs).sub 2))).le
          (((JSNum.num 1).add c.radius).mul ((JSNum.num 1).add c.radius)) = true) ∧
    isCircleOverlapping [] 2 5 4 (JSNum.num 1) = false :=
  ⟨by decide,
    (C1_isCircleOverlapping_iff [Circle.new 0 0 3] 2 5 4 (JSNum.num 1) (by decide)).1,
    (C1_isCircleOverlapping_iff [Circle.new 0 0 3] 2 5 4 (JSNum.num 1) (by decide)).2.1⟩

/-- C2: every circle that `addNewCircles` appends is a fresh circle which, when it
was appended, did not overlap (overlap test with `radius = Circle.startRadius`)
any circle then in the list: the circles present before the call and the ones
appended earlier in the same call.  It holds from every engine state, hence at
every tick. -/
theorem C2_addNewCircles_rejects_overlap [Rounding] (s : CirclePacking) (rand : ℕ → ℚ) :
    ∃ added : List Circle,
      (s.addNewCircles rand).circles = s.circles ++ added ∧
      ∀ (pre : List Circle) (c : Circle) (post : List Circle), added = pre ++ c :: post →
        c = Circle.new c.x c.y JSNum.undefined ∧
        isCircleOverlapping (s.circles ++ pre) s.padding c.x c.y Circle.startRadius = false := by
  obtain ⟨added, fin, h1, h2, -⟩ := CirclePacking.addNewCircles_spec s rand
  refine ⟨added, by rw [h1], ?_⟩
  intro pre c post hsplit
  exact CirclePacking.PlacedOk_split s.padding added s.circles pre c post h2 hsplit

/-- C3, as stated, fails: in `Example.touching` the two circles satisfy the
overlap test with `<=` (64 <= 64), and `handleCircleCollisions` leaves both of
them growing. -/
theorem C3_counterexample :
    Example.touching.handleCircleCollisions.circles
        = [Circle.new 100 100 3, Circle.new 110 102 5] ∧
      overlapsWith Example.touching.padding 110 102 5 (Circle.new 100 100 3) = true ∧
      (|(100 : ℚ) - 110| - 2) ^ 2 + (|(100 : ℚ) - 102| - 2) ^ 2 ≤ ((3 : ℚ) + 5) ^ 2 ∧
      (Circle.new 100 100 3).growing = true ∧ (Circle.new 110 102 5).growing = true := by
  decide!

/-- C3, amended: after `handleCircleCollisions`, two circles at indices `i < j`
that pass the strict test `d < (r1 + r2)^2`, evaluated as the code evaluates it
(`StrictlyOverlap`), both have `growing == false`; a circle that belongs to no
pair passing the strict test, for instance one that only meets others at exact
equality, is left as it was; and when rounding commutes with negation, as that
of the doubles does, the order of the two circles in the test does not matter. -/
theorem C3_handleCircleCollisions_freezes_strict [Rounding] (s : CirclePacking) (i j : ℕ)
    (a b : Circle) (hij : i < j)
    (ha : s.handleCircleCollisions.circles[i]? = some a)
    (hb : s.handleCircleCollisions.circles[j]? = some b) :
    (CirclePacking.StrictlyOverlap s.padding a b → a.growing = false ∧ b.growing = false) ∧
    (∀ (k : ℕ) (c : Circle), s.circles[k]? = some c →
      ¬ CirclePacking.InCollidingPair s.padding s.circles k →
      s.handleCircleCollisions.circles[k]? = some c) ∧
    ((∀ q : ℚ, Rounding.rnd (-q) = -Rounding.rnd q) →
      CirclePacking.StrictlyOverlap s.padding b a →
      a.growing = false ∧ b.growing = false) := by
  refine ⟨fun h => ?_, fun k c hc hout => ?_, fun hneg h => ?_⟩
  · exact CirclePacking.collisionLoops_frozen s.padding s.circles i j a b hij ha hb
      ((CirclePacking.strictlyOverlap_iff s.padding a b).1 h)
  · have hk := CirclePacking.handleCircleCollisions_getElem? s k c hc
    have hf : CirclePacking.hit s.padding s.circles k = false := by
      by_contra hne
      exact hout ((CirclePacking.hit_iff_inCollidingPair s.padding s.circles k).1
        (by simpa using hne))
    rw [hk, hf]
    rfl
  · have h' := (CirclePacking.strictlyOverlap_iff s.padding b a).1 h
    rw [CirclePacking.collides_swap hneg] at h'
    exact CirclePacking.collisionLoops_frozen s.padding s.circles i j a b hij ha hb h'

/-- C3, amended, at a concrete input: the two circles of `Example.overlapping`,
of radius 3 at (100, 100) and (105, 102), which overlap strictly (9 < 36) and
are both frozen. -/
theorem C3_handleCircleCollisions_freezes_strict_witness :
    0 < 1 ∧
    Example.overlapping.handleCircleCollisions.circles[0]?
      = some (Circle.new 100 100 3).stopGrowing ∧
    Example.overlapping.handleCircleCollisions.circles[1]?
      = some (Circle.new 105 102 3).stopGrowing ∧
    CirclePacking.StrictlyOverlap Example.overlapping.padding
      (Circle.new 100 100 3).stopGrowing (Circle.new 105 102 3).stopGrowing ∧
    (CirclePacking.StrictlyOverlap Example.overlapping.padding
        (Circle.new 100 100 3).stopGrowing (Circle.new 105 102 3).stopGrowing →
      (Circle.new 100 100 3).stopGrowing.growing = false ∧
      (Circle.new 105 102 3).stopGrowing.growing = false) :=
  ⟨by decide, by decide!, by decide!,
    (CirclePacking.strictlyOverlap_iff _ _ _).2 (by decide!),
    (C3_handleCircleCollisions_freezes_strict Example.overlapping 0 1
      (Circle.new 100 100 3).stopGrowing (Circle.new 105 102 3).stopGrowing (by decide)
      (by decide!) (by decide!)).1⟩

/-- C4 fails on the code: in the engine `Example.occupied` (padding 2, a circle of
radius `Circle.startRadius = 1` anchored at (10, 10)) a placement attempt that
samples (10, 10) again is accepted, because the test compares
`(0 - 2)^2 + (0 - 2)^2 = 8` with `(1 + 1)^2 = 4`.  The first conjunct shows how
the state arises: it is the fresh session after one placement. -/
theorem C4_same_point_accepted :
    (Example.singlePoint.createCircle 0).map (fun c => [c]) = some Example.occupied.circles ∧
      isCircleOverlapping Example.occupied.circles Example.occupied.padding 10 10
        Circle.startRadius = false ∧
      Example.occupied.createCircle 0 = some (Circle.new 10 10 JSNum.undefined) := by
  decide!

/-- C5 fails on the code: in the fresh session whose only candidate point is
(10, 10), with `maxCircles = 1`, the first call of `addNewCircles` places a
circle at (10, 10) at each of its 100 attempts, whatever the samples in [0, 1)
are; the session ends with `finished == true` and 100 circles. -/
theorem C5_single_point_places_100 (rand : ℕ → ℚ) (hrand : ∀ k, 0 ≤ rand k ∧ rand k < 1) :
    (Example.singlePoint.addNewCircles rand).circles
        = List.replicate 100 (Circle.new 10 10 JSNum.undefined) ∧
      (Example.singlePoint.addNewCircles rand).finished = true := by
  have h := CirclePacking.addNewCirclesLoop_all_placed rand Example.singlePoint
    (Circle.new 10 10 JSNum.undefined) (by decide)
    (fun k i => CirclePacking.createCircle_singlePoint (rand i) (hrand i).1 (hrand i).2 k)
    100 0 0
  have e : ({ Example.singlePoint with
      circles := List.replicate 0 (Circle.new 10 10 JSNum.undefined) } : CirclePacking)
      = Example.singlePoint := rfl
  rw [e] at h
  unfold CirclePacking.addNewCircles
  rw [h]
  constructor <;> rfl

/-- C5 on the code, for the samples that are all 0. -/
theorem C5_single_point_places_100_witness :
    (∀ k : ℕ, 0 ≤ (fun _ : ℕ => (0 : ℚ)) k ∧ (fun _ : ℕ => (0 : ℚ)) k < 1) ∧
      (Example.singlePoint.addNewCircles (fun _ => 0)).circles
        = List.replicate 100 (Circle.new 10 10 JSNum.undefined) ∧
      (Example.singlePoint.addNewCircles (fun _ => 0)).finished = true :=
  ⟨fun _ => by norm_num, C5_single_point_places_100 (fun _ => 0) (fun _ => by norm_num)⟩

/-- C6, as stated, fails.  On `Example.threePoints 5000` the first call places a
circle at (100, 100) and then fails 99 times; the second call starts with one more
failure, the hundredth in a row, and the session is not finished: the next
attempt places a second circle, and `finished` is still false after the call. -/
theorem C6_counterexample :
    ((Example.threePoints 5000).addNewCircles Example.firstCall).circles
        = [Circle.new 100 100 JSNum.undefined] ∧
      ((Example.threePoints 5000).addNewCircles Example.firstCall).finished = false ∧
      (∀ k < 100, 1 ≤ k →
        ((Example.threePoints 5000).addNewCircles Example.firstCall).createCircle
          (Example.firstCall k) = none) ∧
      ((Example.threePoints 5000).addNewCircles Example.firstCall).createCircle
          (Example.secondCall 0) = none ∧
      (((Example.threePoints 5000).addNewCircles Example.firstCall).addNewCircles
          Example.secondCall).circles
        = [Circle.new 100 100 JSNum.undefined, Circle.new 300 300 JSNum.undefined] ∧
      (((Example.threePoints 5000).addNewCircles Example.firstCall).addNewCircles
          Example.secondCall).finished = false := by
  decide!

/-- C6, amended: from an engine with `finished == false`, `circles.length <
maxCircles` and `maxAttempts = 100`, a call of `addNewCircles` ends with
`finished == true` exactly when `circles.length >= maxCircles` at the end of the
call or all 100 placement attempts of that call failed.  Failures are counted
within one call only. -/
theorem C6_finished_after_call [Rounding] (s : CirclePacking) (rand : ℕ → ℚ)
    (hfin : s.finished = false) (hlen : s.circles.length < s.maxCircles)
    (hM : s.maxAttempts = 100) :
    (s.addNewCircles rand).finished = true ↔
      (s.maxCircles ≤ (s.addNewCircles rand).circles.length ∨
        ∀ k < 100, s.createCircle (rand k) = none) :=
  CirclePacking.addNewCircles_finished_iff s rand hfin hlen hM

/-- C6, amended, at a concrete input: the first call on `Example.threePoints 5000`. -/
theorem C6_finished_after_call_witness :
    (Example.threePoints 5000).finished = false ∧
      (Example.threePoints 5000).circles.length < (Example.threePoints 5000).maxCircles ∧
      (Example.threePoints 5000).maxAttempts = 100 ∧
      (((Example.threePoints 5000).addNewCircles Example.firstCall).finished = true ↔
        ((Example.threePoints 5000).maxCircles
            ≤ ((Example.threePoints 5000).addNewCircles Example.firstCall).circles.length ∨
          ∀ k < 100, (Example.threePoints 5000).createCircle (Example.firstCall k) = none)) :=
  ⟨rfl, by decide, rfl,
    C6_finished_after_call (Example.threePoints 5000) Example.firstCall rfl (by decide) rfl⟩

/-- C7 fails on the code: in a fresh session with no candidate point, every
attempt reads `undefined` coordinates past the end of `textPixels`, the overlap
test is false on them, and a circle anchored at (`undefined`, `undefined`) is
placed; after the call the list holds 100 such circles and `finished` is false. -/
theorem C7_empty_textPixels_places_circles (rand : ℕ → ℚ) :
    Example.noPixels.textPixels = [] ∧ Example.noPixels.circles = [] ∧
      Example.noPixels.finished = false ∧ 0 < Example.noPixels.maxCircles ∧
      (Example.noPixels.addNewCircles rand).circles
        = List.replicate 100 (Circle.new JSNum.undefined JSNum.undefined JSNum.undefined) ∧
      (Example.noPixels.addNewCircles rand).finished = false := by
  have h := CirclePacking.addNewCirclesLoop_all_placed rand Example.noPixels
    (Circle.new JSNum.undefined JSNum.undefined JSNum.undefined) (by decide)
    (fun k i => CirclePacking.createCircle_noPixels (rand i) k) 100 0 0
  have e : ({ Example.noPixels with
      circles := List.replicate 0
        (Circle.new JSNum.undefined JSNum.undefined JSNum.undefined) } : CirclePacking)
      = Example.noPixels := rfl
  rw [e] at h
  refine ⟨rfl, rfl, rfl, by decide, ?_⟩
  unfold CirclePacking.addNewCircles
  rw [h]
  constructor <;> rfl

/-- C8, as stated, fails: on `Example.threePoints 1` (`maxCircles = 1`, no circle
yet) one call of `addNewCircles` places two circles, at (100, 100) and at
(300, 300), so `circles.length = 2 > maxCircles` afterwards. -/
theorem C8_counterexample :
    (Example.threePoints 1).circles.length ≤ (Example.threePoints 1).maxCircles ∧
      ((Example.threePoints 1).addNewCircles Example.twoPlaced).circles
        = [Circle.new 100 100 JSNum.undefined, Circle.new 300 300 JSNum.undefined] ∧
      ((Example.threePoints 1).addNewCircles Example.twoPlaced).maxCircles = 1 ∧
      ((Example.threePoints 1).addNewCircles Example.twoPlaced).finished = true := by
  decide!

/-- C8, amended: `addNewCircles` tests `circles.length < maxCircles` once, on
entry, and then places at most 100 circles.  From a state with
`circles.length <= maxCircles` the call ends with
`circles.length <= maxCircles + 99`; a call entered with
`circles.length >= maxCircles` changes nothing; and the bound
`circles.length <= maxCircles + 99` holds after any sequence of frames. -/
theorem C8_length_bound [Rounding] (sqrt : ℚ → ℚ) (s : CirclePacking) (rand : ℕ → ℚ)
    (h : s.circles.length ≤ s.maxCircles) :
    (s.addNewCircles rand).circles.length ≤ s.maxCircles + 99 ∧
    (s.maxCircles ≤ s.circles.length → s.addNewCircles rand = s) ∧
    (∀ inputs : List TickInput, (s.run sqrt inputs).maxCircles = s.maxCircles ∧
      (s.run sqrt inputs).circles.length ≤ s.maxCircles + 99) := by
  obtain ⟨-, a2, a3⟩ := CirclePacking.addNewCircles_length s rand
  exact ⟨a3 (by omega), a2, fun inputs => CirclePacking.run_length sqrt inputs s (by omega)⟩

/-- C8, amended, at a concrete input: the fresh session `Example.threePoints 1`. -/
theorem C8_length_bound_witness :
    (Example.threePoints 1).circles.length ≤ (Example.threePoints 1).maxCircles ∧
    (((Example.threePoints 1).addNewCircles Example.twoPlaced).circles.length
      ≤ (Example.threePoints 1).maxCircles + 99 ∧
    ((Example.threePoints 1).maxCircles ≤ (Example.threePoints 1).circles.length →
      (Example.threePoints 1).addNewCircles Example.twoPlaced = Example.threePoints 1) ∧
    (∀ inputs : List TickInput,
      ((Example.threePoints 1).run (fun q => q) inputs).maxCircles
        = (Example.threePoints 1).maxCircles ∧
      ((Example.threePoints 1).run (fun q => q) inputs).circles.length
        ≤ (Example.threePoints 1).maxCircles + 99)) :=
  ⟨by decide,
    C8_length_bound (fun q => q) (Example.threePoints 1) Example.twoPlaced (by decide)⟩

/-- C9: for a circle of radius `r` and `deltatime = d >= 0`, `Circle.update` gives
the radius `r + d * 25 >= r` when the circle is growing and leaves the radius `r`
when it is frozen; and over any sequence of frames with non-negative elapsed
times, the radius of a circle of the engine never decreases, and it keeps its
value (and the circle stays frozen) once the circle is frozen. -/
theorem C9_radius_monotone (sqrt : ℚ → ℚ) (c : Circle) (r d : ℚ)
    (hr : c.radius = JSNum.num r) (hd : 0 ≤ d) :
    (c.growing = true →
      (c.update (JSNum.num d)).radius = JSNum.num (r + d * 25) ∧ r ≤ r + d * 25) ∧
    (c.growing = false → (c.update (JSNum.num d)).radius = JSNum.num r) ∧
    (∀ (s : CirclePacking) (inputs : List TickInput) (k : ℕ), s.circles[k]? = some c →
      (∀ inp ∈ inputs, ∃ e : ℚ, inp.deltatime = JSNum.num e ∧ 0 ≤ e) →
      ∃ c' r', (s.run sqrt inputs).circles[k]? = some c' ∧ c'.radius = JSNum.num r' ∧
        r ≤ r' ∧ (c.growing = false → r' = r ∧ c'.growing = false)) := by
  refine ⟨fun hg => ⟨CirclePacking.update_radius_growing c r d hr hg, ?_⟩, fun hg => ?_,
    fun s inputs k h hall => CirclePacking.run_radius sqrt inputs s k c r h hr hall⟩
  · have : 0 ≤ d * 25 := by positivity
    linarith
  · rw [CirclePacking.update_radius_frozen c _ hg, hr]

/-- C9 at a concrete input: a fresh circle at (100, 100) and a frame of 20 ms. -/
theorem C9_radius_monotone_witness :
    (Circle.new 100 100 JSNum.undefined).radius = JSNum.num 1 ∧ (0 : ℚ) ≤ 1 / 50 ∧
    (((Circle.new 100 100 JSNum.undefined).growing = true →
      ((Circle.new 100 100 JSNum.undefined).update (JSNum.num (1 / 50))).radius
          = JSNum.num (1 + 1 / 50 * 25) ∧ (1 : ℚ) ≤ 1 + 1 / 50 * 25) ∧
    ((Circle.new 100 100 JSNum.undefined).growing = false →
      ((Circle.new 100 100 JSNum.undefined).update (JSNum.num (1 / 50))).radius
        = JSNum.num 1) ∧
    (∀ (s : CirclePacking) (inputs : List TickInput) (k : ℕ),
      s.circles[k]? = some (Circle.new 100 100 JSNum.undefined) →
      (∀ inp ∈ inputs, ∃ e : ℚ, inp.deltatime = JSNum.num e ∧ 0 ≤ e) →
      ∃ c' r', (s.run (fun q => q) inputs).circles[k]? = some c' ∧
        c'.radius = JSNum.num r' ∧ 1 ≤ r' ∧
        ((Circle.new 100 100 JSNum.undefined).growing = false →
          r' = 1 ∧ c'.growing = false))) :=
  ⟨rfl, by norm_num,
    C9_radius_monotone (fun q => q) (Circle.new 100 100 JSNum.undefined) 1 (1 / 50) rfl
      (by norm_num)⟩

/-- C10: a circle with `growing == false` before `CirclePacking.update` still has
`growing == false` after it, at the same index; `Circle.update`, `stopGrowing`,
`addNewCircles`, `handleCircleCollisions` and `updateMouseEvents` each leave it
frozen, and `stopGrowing` is idempotent. -/
theorem C10_frozen_stays_frozen [Rounding] (sqrt : ℚ → ℚ) (s : CirclePacking) (deltatime : JSNum)
    (rand : ℕ → ℚ) (k : ℕ) (c : Circle) (h : s.circles[k]? = some c)
    (hg : c.growing = false) :
    (∃ c', (s.update sqrt deltatime rand).circles[k]? = some c' ∧ c'.growing = false) ∧
    (c.update deltatime).growing = false ∧
    c.stopGrowing.growing = false ∧
    (s.addNewCircles rand).circles[k]? = some c ∧
    (∃ c', s.handleCircleCollisions.circles[k]? = some c' ∧ c'.growing = false) ∧
    (∃ c', (s.updateMouseEvents sqrt).circles[k]? = some c' ∧ c'.growing = false) ∧
    (∀ a : Circle, a.stopGrowing.stopGrowing = a.stopGrowing) := by
  refine ⟨?_, ?_, rfl, CirclePacking.addNewCircles_getElem? s rand k c h, ?_, ?_,
    fun _ => rfl⟩
  · obtain ⟨c', h1, -, -, -, h2⟩ := CirclePacking.update_getElem? sqrt s deltatime rand k c h
    exact ⟨c', h1, h2 hg⟩
  · simp [Circle.update, Circle.grow, hg]
  · exact ⟨_, CirclePacking.handleCircleCollisions_getElem? s k c h,
      (CirclePacking.freezeIf_same _ c).2.2.2 hg⟩
  · obtain ⟨c', h1, -, -, -, h2⟩ := CirclePacking.updateMouseEvents_getElem? sqrt s k c h
    exact ⟨c', h1, by rw [h2, hg]⟩

/-- C10 at a concrete input: the frozen circle of `Example.oneFrozen`, under the
pointer, during a frame of 20 ms. -/
theorem C10_frozen_stays_frozen_witness :
    Example.oneFrozen.circles[0]? = some (Circle.new 100 100 3).stopGrowing ∧
    (Circle.new 100 100 3).stopGrowing.growing = false ∧
    ((∃ c', (Example.oneFrozen.update (fun q => q) (JSNum.num (1 / 50))
        (fun _ => 1 / 2)).circles[0]? = some c' ∧ c'.growing = false) ∧
    ((Circle.new 100 100 3).stopGrowing.update (JSNum.num (1 / 50))).growing = false ∧
    (Circle.new 100 100 3).stopGrowing.stopGrowing.growing = false ∧
    (Example.oneFrozen.addNewCircles (fun _ => 1 / 2)).circles[0]?
      = some (Circle.new 100 100 3).stopGrowing ∧
    (∃ c', Example.oneFrozen.handleCircleCollisions.circles[0]? = some c' ∧
      c'.growing = false) ∧
    (∃ c', (Example.oneFrozen.updateMouseEvents (fun q => q)).circles[0]? = some c' ∧
      c'.growing = false) ∧
    (∀ a : Circle, a.stopGrowing.stopGrowing = a.stopGrowing)) :=
  ⟨rfl, rfl,
    C10_frozen_stays_frozen (fun q => q) Example.oneFrozen (JSNum.num (1 / 50))
      (fun _ => 1 / 2) 0 (Circle.new 100 100 3).stopGrowing rfl rfl⟩

/-- C11 fails on the code: with `clicked == true` and the pointer exactly on the
smoothed position of a circle (so `dist = Math.sqrt(0) = 0`), `updateMouseEvents`
divides `dx` and `dy` by `dist` without a guard, and the circle is left with
`curr_x = NaN` and `curr_y = NaN`. -/
theorem C11_pointer_on_centre_gives_nan (sqrt : ℚ → ℚ) (s : CirclePacking) (k : ℕ)
    (c : Circle) (a b ρ β : ℚ) (h0 : sqrt 0 = 0) (hclicked : s.clicked = true)
    (hc : s.circles[k]? = some c)
    (hcx : c.curr_x = JSNum.num a) (hcy : c.curr_y = JSNum.num b)
    (hr : c.radius = JSNum.num ρ) (hmx : s.mouse_x = JSNum.num a)
    (hmy : s.mouse_y = JSNum.num b) (hB : s.blobRadius = JSNum.num β) :
    ∃ c', (s.updateMouseEvents sqrt).circles[k]? = some c' ∧
      c'.curr_x = JSNum.nan ∧ c'.curr_y = JSNum.nan := by
  refine ⟨CirclePacking.mouseStep sqrt s.mouse_x s.mouse_y s.blobRadius s.forceFactor c,
    ?_, ?_⟩
  · unfold CirclePacking.updateMouseEvents
    simp only [hclicked, if_true, List.getElem?_map, hc, Option.map_some']
  · rw [hmx, hmy, hB]
    exact CirclePacking.mouseStep_on_centre sqrt h0 s.forceFactor c a b ρ β hcx hcy hr

/-- C11 on the code, at the engine `Example.pointerOnCentre`: a circle of radius 3
whose smoothed position is (100, 100), the pointer pressed at (100, 100). -/
theorem C11_pointer_on_centre_gives_nan_witness :
    Example.sqrt 0 = 0 ∧ Example.pointerOnCentre.clicked = true ∧
    Example.pointerOnCentre.circles[0]? = some (Circle.new 100 100 3) ∧
    ∃ c', (Example.pointerOnCentre.updateMouseEvents Example.sqrt).circles[0]? = some c' ∧
      c'.curr_x = JSNum.nan ∧ c'.curr_y = JSNum.nan :=
  ⟨by decide!, rfl, rfl,
    C11_pointer_on_centre_gives_nan Example.sqrt Example.pointerOnCentre 0
      (Circle.new 100 100 3) 100 100 3 200 (by decide!) rfl rfl rfl rfl (by decide!) rfl rfl
      rfl⟩

/-- C12: `updateMouseEvents` changes nothing but the list of circles, keeps its
length and order, and keeps the anchor, the radius and the `growing` flag of
every circle; a circle is changed (in its smoothed position) only when
`clicked == true` and
`(curr_x - mouse.x)^2 + (curr_y - mouse.y)^2 <= (blobRadius + radius)^2`; and
with `clicked == false` the engine is unchanged. -/
theorem C12_updateMouseEvents_frame (sqrt : ℚ → ℚ) (s : CirclePacking) :
    (∃ circles', s.updateMouseEvents sqrt = { s with circles := circles' }) ∧
    (s.updateMouseEvents sqrt).finished = s.finished ∧
    (s.updateMouseEvents sqrt).circles.length = s.circles.length ∧
    (∀ (k : ℕ) (c : Circle), s.circles[k]? = some c →
      ∃ c', (s.updateMouseEvents sqrt).circles[k]? = some c' ∧
        c'.x = c.x ∧ c'.y = c.y ∧ c'.radius = c.radius ∧ c'.growing = c.growing ∧
        c'.ease = c.ease ∧
        (c' ≠ c → s.clicked = true ∧
          ∃ cx cy mx my β ρ : ℚ,
            c.curr_x.toNum = some cx ∧ c.curr_y.toNum = some cy ∧
            s.mouse_x.toNum = some mx ∧ s.mouse_y.toNum = some my ∧
            s.blobRadius.toNum = some β ∧ c.radius.toNum = some ρ ∧
            (cx - mx) ^ 2 + (cy - my) ^ 2 ≤ (β + ρ) ^ 2)) ∧
    (s.clicked = false → s.updateMouseEvents sqrt = s) := by
  refine ⟨?_, ?_, ?_, ?_, ?_⟩
  · unfold CirclePacking.updateMouseEvents
    split
    · exact ⟨_, rfl⟩
    · exact ⟨s.circles, rfl⟩
  · unfold CirclePacking.updateMouseEvents
    split <;> rfl
  · unfold CirclePacking.updateMouseEvents
    split
    · simp only [List.length_map]
    · rfl
  · intro k c hc
    unfold CirclePacking.updateMouseEvents
    by_cases hcl : s.clicked = true
    · simp only [hcl, if_true, List.getElem?_map, hc, Option.map_some']
      refine ⟨_, rfl, ?_⟩
      obtain ⟨e1, e2, e3, e4⟩ :=
        CirclePacking.mouseStep_same sqrt s.mouse_x s.mouse_y s.blobRadius s.forceFactor c
      refine ⟨e1, e2, e3, e4, ?_, ?_⟩
      · unfold CirclePacking.mouseStep
        simp only
        split <;> rfl
      · intro hne
        refine ⟨trivial, ?_⟩
        rw [← CirclePacking.mouseReach_iff]
        by_contra hnot
        exact hne (CirclePacking.mouseStep_of_not_reached sqrt _ _ _ _ c (by simpa using hnot))
    · simp only [hcl, Bool.false_eq_true, if_false]
      exact ⟨c, hc, rfl, rfl, rfl, rfl, rfl, fun hne => absurd rfl hne⟩
  · intro hcl
    unfold CirclePacking.updateMouseEvents
    simp [hcl]

/-- C13: the overlap test is symmetric.  Testing the circle `a` as the candidate
against `b` gives the same result as testing `b` against `a`, for the placement
test of `isCircleOverlapping` and for the pair test of `handleCircleCollisions`,
also at swapped indices of a list. -/
theorem C13_overlap_symmetric (padding : JSNum) (a b : Circle)
    (ha : a.radius ≠ JSNum.undefined) (hb : b.radius ≠ JSNum.undefined) :
    isCircleOverlapping [b] padding a.x a.y a.radius
        = isCircleOverlapping [a] padding b.x b.y b.radius ∧
      CirclePacking.collides padding a b = CirclePacking.collides padding b a ∧
      (∀ (circles : List Circle) (i j : ℕ),
        CirclePacking.collidesAt padding circles i j
          = CirclePacking.collidesAt padding circles j i) := by
  refine ⟨?_, CirclePacking.collides_comm padding a b, fun circles i j => ?_⟩
  · unfold isCircleOverlapping
    rw [orDefault_of_ne_undefined _ _ ha, orDefault_of_ne_undefined _ _ hb]
    simp only [isCircleOverlappingLoop]
    have key : overlapsWith padding a.x a.y a.radius b
        = overlapsWith padding b.x b.y b.radius a := by
      rw [Bool.eq_iff_iff, overlapsWith_iff, overlapsWith_iff]
      constructor
      · rintro ⟨cx, cy, cr, xq, yq, rq, pq, h1, h2, h3, h4, h5, h6, h7, h⟩
        exact ⟨xq, yq, rq, cx, cy, cr, pq, h4, h5, h6, h1, h2, h3, h7,
          by rw [abs_sub_comm xq cx, abs_sub_comm yq cy, add_comm cr rq]; exact h⟩
      · rintro ⟨cx, cy, cr, xq, yq, rq, pq, h1, h2, h3, h4, h5, h6, h7, h⟩
        exact ⟨xq, yq, rq, cx, cy, cr, pq, h4, h5, h6, h1, h2, h3, h7,
          by rw [abs_sub_comm xq cx, abs_sub_comm yq cy, add_comm cr rq]; exact h⟩
    rw [key]
  · unfold CirclePacking.collidesAt
    cases circles[i]? <;> cases circles[j]? <;> simp [CirclePacking.collides_comm]

/-- C13 at a concrete input: circles of radius 3 at (100, 100) and of radius 5 at
(110, 102), padding 2. -/
theorem C13_overlap_symmetric_witness :
    (Circle.new 100 100 3).radius ≠ JSNum.undefined ∧
    (Circle.new 110 102 5).radius ≠ JSNum.undefined ∧
    (isCircleOverlapping [Circle.new 110 102 5] 2 (Circle.new 100 100 3).x
        (Circle.new 100 100 3).y (Circle.new 100 100 3).radius
      = isCircleOverlapping [Circle.new 100 100 3] 2 (Circle.new 110 102 5).x
        (Circle.new 110 102 5).y (Circle.new 110 102 5).radius ∧
    CirclePacking.collides 2 (Circle.new 100 100 3) (Circle.new 110 102 5)
      = CirclePacking.collides 2 (Circle.new 110 102 5) (Circle.new 100 100 3) ∧
    (∀ (circles : List Circle) (i j : ℕ),
      CirclePacking.collidesAt 2 circles i j = CirclePacking.collidesAt 2 circles j i)) :=
  ⟨by decide!, by decide!,
    C13_overlap_symmetric 2 (Circle.new 100 100 3) (Circle.new 110 102 5) (by decide!)
      (by decide!)⟩

/-- C14, as stated, fails on doubles (`Rounding.binary64`): from the smoothed
position 0 and the anchor 100, three updates give `4014536855335731 / 2^48` (the
double nearest to 14.2625) and the fourth gives `326324056007639 / 2^44`
(18.549374999999998).  The offset from the anchor after the fourth update is
neither `19/20` times the offset before it nor `(19/20)^4` times the initial
offset 100, and the position is not even the double nearest to
`100 - (19/20)^4 * 100 = 18.549375`, which is `5221184896122225 / 2^48`. -/
theorem C14_counterexample :
    ([JSNum.num (1 / 64), JSNum.num (1 / 64), JSNum.num (1 / 64)].foldl
        (@Circle.update Rounding.binary64) Example.farFromAnchor).curr_x
      = JSNum.num (4014536855335731 / 281474976710656) ∧
    ([JSNum.num (1 / 64), JSNum.num (1 / 64), JSNum.num (1 / 64), JSNum.num (1 / 64)].foldl
        (@Circle.update Rounding.binary64) Example.farFromAnchor).curr_x
      = JSNum.num (326324056007639 / 17592186044416) ∧
    (100 : ℚ) - 326324056007639 / 17592186044416
      ≠ 19 / 20 * (100 - 4014536855335731 / 281474976710656) ∧
    (100 : ℚ) - 326324056007639 / 17592186044416 ≠ (19 / 20) ^ 4 * (100 - 0) ∧
    roundBinary64 (100 - (19 / 20) ^ 4 * (100 - 0)) = 5221184896122225 / 281474976710656 ∧
    (326324056007639 / 17592186044416 : ℚ) ≠ 5221184896122225 / 281474976710656 := by
  decide!

/-- C14, amended: for a circle with `ease = 20`, `Circle.update(deltatime)` leaves
the anchor unchanged and sets each smoothed coordinate to
`smoothed + (anchor - smoothed) / 20`, every operation rounding, whatever
`deltatime` is; a circle whose smoothed position is its anchor, a number that
rounding leaves unchanged, keeps it; and without rounding (`Rounding.exact`)
the offset `anchor - smoothed` after `n` updates is `(19/20)^n` times the
initial one. -/
theorem C14_smoothing_step [Rounding] (c : Circle) (deltatime : JSNum) (X Y CX CY : ℚ)
    (hx : c.x = JSNum.num X) (hy : c.y = JSNum.num Y) (hcx : c.curr_x = JSNum.num CX)
    (hcy : c.curr_y = JSNum.num CY) (hease : c.ease = 20) :
    ((c.update deltatime).x = c.x ∧ (c.update deltatime).y = c.y) ∧
    ((c.update deltatime).curr_x
        = JSNum.num (Rounding.rnd (CX + Rounding.rnd (Rounding.rnd (X - CX) / 20))) ∧
      (c.update deltatime).curr_y
        = JSNum.num (Rounding.rnd (CY + Rounding.rnd (Rounding.rnd (Y - CY) / 20)))) ∧
    (∀ other : JSNum, (c.update other).curr_x = (c.update deltatime).curr_x ∧
      (c.update other).curr_y = (c.update deltatime).curr_y) ∧
    (CX = X → CY = Y → Rounding.rnd 0 = 0 → Rounding.rnd X = X → Rounding.rnd Y = Y →
      (c.update deltatime).curr_x = c.x ∧ (c.update deltatime).curr_y = c.y) ∧
    (∀ dts : List JSNum,
      ∃ CX' CY' : ℚ,
        (dts.foldl (@Circle.update Rounding.exact) c).curr_x = JSNum.num CX' ∧
        (dts.foldl (@Circle.update Rounding.exact) c).curr_y = JSNum.num CY' ∧
        X - CX' = (19 / 20) ^ dts.length * (X - CX) ∧
        Y - CY' = (19 / 20) ^ dts.length * (Y - CY)) := by
  obtain ⟨u1, u2, u3, u4⟩ :=
    CirclePacking.update_smoothed_rounded c deltatime X Y CX CY hx hy hcx hcy hease
  refine ⟨⟨u1, u2⟩, ⟨u3, u4⟩, fun other => ?_, ?_, fun dts => ?_⟩
  · obtain ⟨-, -, v3, v4⟩ :=
      CirclePacking.update_smoothed_rounded c other X Y CX CY hx hy hcx hcy hease
    rw [u3, u4, v3, v4]
    exact ⟨rfl, rfl⟩
  · intro h1 h2 h0 hX hY
    subst h1
    subst h2
    rw [u3, u4, hx, hy]
    simp [h0, hX, hY]
  · obtain ⟨-, -, CX', CY', i3, i4, i5, i6⟩ :=
      CirclePacking.updates_smoothed dts c X Y CX CY hx hy hcx hcy hease
    exact ⟨CX', CY', i3, i4, i5, i6⟩

/-- C14, amended, at a concrete input: a circle anchored at (100, 100) whose
smoothed position is (80, 120), and a frame of 1/64 s. -/
theorem C14_smoothing_step_witness :
    ({ Circle.new 100 100 3 with curr_x := 80, curr_y := 120 } : Circle).ease = 20 ∧
    (({ Circle.new 100 100 3 with curr_x := 80, curr_y := 120 } : Circle).update
        (JSNum.num (1 / 64))).curr_x = JSNum.num (80 + (100 - 80) / 20) ∧
    (({ Circle.new 100 100 3 with curr_x := 80, curr_y := 120 } : Circle).update
        (JSNum.num (1 / 64))).curr_y = JSNum.num (120 + (100 - 120) / 20) :=
  ⟨rfl,
    (C14_smoothing_step { Circle.new 100 100 3 with curr_x := 80, curr_y := 120 }
      (JSNum.num (1 / 64)) 100 100 80 120 rfl rfl rfl rfl rfl).2.1⟩

/-- C15: a finished engine stays finished through `update` (and through any
sequence of frames) and gets no new circle; `update` never removes or reorders
circles, the anchors before the tick being a prefix of the anchors after it;
and `reset()` is what sets `finished` to false again and empties the list. -/
theorem C15_finished_is_terminal [Rounding] (sqrt : ℚ → ℚ) (s : CirclePacking) (deltatime : JSNum)
    (rand : ℕ → ℚ) :
    (s.finished = true →
      (s.update sqrt deltatime rand).finished = true ∧
      (s.update sqrt deltatime rand).circles.length = s.circles.length) ∧
    (∀ inputs : List TickInput, s.finished = true →
      (s.run sqrt inputs).finished = true ∧
      (s.run sqrt inputs).circles.length = s.circles.length) ∧
    (s.circles.map CirclePacking.anchor
      <+: (s.update sqrt deltatime rand).circles.map CirclePacking.anchor) ∧
    (∀ data : List ℕ, (s.reset data).finished = false ∧ (s.reset data).circles = []) := by
  refine ⟨CirclePacking.update_finished sqrt s deltatime rand,
    fun inputs => CirclePacking.run_finished sqrt inputs s, ?_, fun data => ⟨rfl, rfl⟩⟩
  obtain ⟨added, fin, h1, -, -⟩ := CirclePacking.update_anchors sqrt s deltatime rand
  rw [h1]
  exact List.prefix_append _ _

/-- C16, as stated, fails: on a 10 x 10 canvas with three white pixels,
`createTextPixels` stores the 3 candidate points (2, 1), (3, 1), (2, 2), for which
`floor(0.01 * 3) = 0`, and sets `maxCircles = 4`, one hundredth of the 400 bytes
of image data. -/
theorem C16_counterexample :
    (Example.small.reset Example.threeWhite).textPixels = [2, 1, 3, 1, 2, 2] ∧
      (Example.small.reset Example.threeWhite).textPixels.length / 2 = 3 ∧
      ⌊(1 / 100 : ℚ) * 3⌋ = 0 ∧
      (Example.small.reset Example.threeWhite).maxCircles = 4 := by
  decide!

/-- C16, amended: after `createTextPixels` (and hence after every `reset`),
`maxCircles` is `floor(0.01 * L)` where `L` is the length of the image data array
read from the canvas; it does not depend on the candidate points stored in
`this.textPixels`. -/
theorem C16_maxCircles_from_image_data [Rounding] (s : CirclePacking) (data : List ℕ) :
    (s.createTextPixels data).maxCircles = data.length / 100 ∧
      (s.reset data).maxCircles = data.length / 100 := by
  constructor
  · exact CirclePacking.floor_hundredth data.length
  · exact CirclePacking.floor_hundredth data.length

/-- C17: after `update(deltatime)`, a circle that existed before the tick keeps its
index and anchor, has the radius that `Circle.update` gave it, and is frozen when
`isOutsideWindow` holds for that radius; on numbers `isOutsideWindow` is true
exactly when `x - r - p < 0` or `x + r + p > width` or `y - r - p < 0` or
`y + r + p > height`, each side evaluated as the code evaluates it (every
operation rounds); and a box whose computed sides are exactly on the edges of the
window is not outside. -/
theorem C17_outside_window_frozen [Rounding] (sqrt : ℚ → ℚ) (s : CirclePacking)
    (deltatime : JSNum) (rand : ℕ → ℚ) (k : ℕ) (c : Circle) (h : s.circles[k]? = some c) :
    (∃ c', (s.update sqrt deltatime rand).circles[k]? = some c' ∧
      c'.x = c.x ∧ c'.y = c.y ∧ c'.radius = (c.update deltatime).radius ∧
      (c'.isOutsideWindow s.width s.height s.windowPadding = true → c'.growing = false)) ∧
    (∀ (d : Circle) (X Y R W H P : ℚ), d.x = JSNum.num X → d.y = JSNum.num Y →
      d.radius = JSNum.num R →
      (d.isOutsideWindow (JSNum.num W) (JSNum.num H) (JSNum.num P) = true ↔
        Rounding.rnd (Rounding.rnd (X - R) - P) < 0 ∨
        Rounding.rnd (Rounding.rnd (X + R) + P) > W ∨
        Rounding.rnd (Rounding.rnd (Y - R) - P) < 0 ∨
        Rounding.rnd (Rounding.rnd (Y + R) + P) > H)) ∧
    (∀ (d : Circle) (W H : ℚ) (padding : JSNum),
      (d.x.sub d.radius).sub padding = JSNum.num 0 →
      (d.x.add d.radius).add padding = JSNum.num W →
      (d.y.sub d.radius).sub padding = JSNum.num 0 →
      (d.y.add d.radius).add padding = JSNum.num H →
      d.isOutsideWindow (JSNum.num W) (JSNum.num H) padding = false) := by
  refine ⟨?_, fun d X Y R W H P hx hy hr =>
    CirclePacking.isOutsideWindow_rounded d X Y R W H P hx hy hr,
    fun d W H padding h1 h2 h3 h4 =>
      CirclePacking.isOutsideWindow_touching d W H padding h1 h2 h3 h4⟩
  obtain ⟨c', h1, e1, e2, e3, e4⟩ :=
    CirclePacking.update_getElem?_frozen sqrt s deltatime rand k c h
  refine ⟨c', h1, e1, e2, e3, fun hout => e4 ?_⟩
  have hsame : c'.isOutsideWindow s.width s.height s.windowPadding
      = (c.update deltatime).isOutsideWindow s.width s.height s.windowPadding := by
    have a1 : (c.update deltatime).x = c.x := by
      simp only [Circle.update, Circle.grow]; split <;> rfl
    have a2 : (c.update deltatime).y = c.y := by
      simp only [Circle.update, Circle.grow]; split <;> rfl
    simp only [Circle.isOutsideWindow, e1, e2, e3, a1, a2]
  rw [hsame] at hout
  simp only [CirclePacking.updateCircle, hout, if_true]
  rfl

/-- C17 at a concrete input: the circle of `Example.nearEdge`, anchored at
(3, 100), during a frame of 1/64 s. -/
theorem C17_outside_window_frozen_witness :
    Example.nearEdge.circles[0]? = some (Circle.new 3 100 JSNum.undefined) ∧
    ∃ c', (Example.nearEdge.update Example.sqrt (JSNum.num (1 / 64))
        (fun _ => 1 / 2)).circles[0]? = some c' ∧
      c'.x = 3 ∧ c'.y = 100 ∧
      c'.radius = ((Circle.new 3 100 JSNum.undefined).update (JSNum.num (1 / 64))).radius ∧
      (c'.isOutsideWindow Example.nearEdge.width Example.nearEdge.height
        Example.nearEdge.windowPadding = true → c'.growing = false) :=
  ⟨rfl,
    (C17_outside_window_frozen Example.sqrt Example.nearEdge (JSNum.num (1 / 64))
      (fun _ => 1 / 2) 0 (Circle.new 3 100 JSNum.undefined) rfl).1⟩

/-- C18: `handleCircleCollisions` keeps the length and order of the list; the
circle at index `k` gets `growing = false`, and nothing else changed, when it
belongs to at least one pair `i < j` with
`(|x_i - x_j| - padding)^2 + (|y_i - y_j| - padding)^2 < (r_i + r_j)^2`,
evaluated as the code evaluates it (`StrictlyOverlap`), and it is left exactly
as it was otherwise. -/
theorem C18_handleCircleCollisions_exact [Rounding] (s : CirclePacking) (k : ℕ)
    (c : Circle) (h : s.circles[k]? = some c) :
    s.handleCircleCollisions.circles.length = s.circles.length ∧
    (CirclePacking.InCollidingPair s.padding s.circles k →
      s.handleCircleCollisions.circles[k]? = some { c with growing := false }) ∧
    (¬ CirclePacking.InCollidingPair s.padding s.circles k →
      s.handleCircleCollisions.circles[k]? = some c) := by
  have hk := CirclePacking.handleCircleCollisions_getElem? s k c h
  have hiff := CirclePacking.hit_iff_inCollidingPair s.padding s.circles k
  refine ⟨(CirclePacking.collisionLoops_masked s.padding s.circles).1, fun hin => ?_,
    fun hout => ?_⟩
  · rw [hk, hiff.2 hin]
    rfl
  · have hf : CirclePacking.hit s.padding s.circles k = false := by
      by_contra hne
      exact hout (hiff.1 (by simpa using hne))
    rw [hk, hf]
    rfl

/-- C18 at a concrete input: the first circle of `Example.overlapping`, which
belongs to a strictly overlapping pair and is frozen. -/
theorem C18_handleCircleCollisions_exact_witness :
    Example.overlapping.circles[0]? = some (Circle.new 100 100 3) ∧
    Example.overlapping.handleCircleCollisions.circles.length = 2 ∧
    (CirclePacking.InCollidingPair Example.overlapping.padding
        Example.overlapping.circles 0 →
      Example.overlapping.handleCircleCollisions.circles[0]?
        = some { Circle.new 100 100 3 with growing := false }) :=
  ⟨rfl,
    (C18_handleCircleCollisions_exact Example.overlapping 0 (Circle.new 100 100 3) rfl).1,
    (C18_handleCircleCollisions_exact Example.overlapping 0 (Circle.new 100 100 3) rfl).2.1⟩

/-- C19: when `handleCircleCollisions` runs after `addNewCircles`, every pair that
involves a circle appended by that call fails the collision test; the appended
circles are all still growing after the collision pass, and the circles that
were there before are frozen exactly as if no circle had been added. -/
theorem C19_new_circles_never_collide [Rounding] (s : CirclePacking) (rand : ℕ → ℚ) :
    ∃ added : List Circle,
      (s.addNewCircles rand).circles = s.circles ++ added ∧
      (∀ (i j : ℕ) (a b : Circle), i < j → s.circles.length ≤ j →
        (s.addNewCircles rand).circles[i]? = some a →
        (s.addNewCircles rand).circles[j]? = some b →
        CirclePacking.collides s.padding a b = false) ∧
      (s.addNewCircles rand).handleCircleCollisions.circles
        = s.handleCircleCollisions.circles ++ added ∧
      (∀ c ∈ added, c.growing = true) := by
  obtain ⟨added, fin, h1, hok, -⟩ := CirclePacking.addNewCircles_spec s rand
  refine ⟨added, by rw [h1], ?_, ?_, ?_⟩
  · intro i j a b hij hj ha hb
    rw [h1] at ha hb
    exact (CirclePacking.PlacedOk_pairs s.padding added s.circles hok i j a b hij hj ha hb).1
  · unfold CirclePacking.handleCircleCollisions
    rw [h1]
    exact CirclePacking.collisionLoops_append s.padding s.circles added hok
  · intro c hc
    obtain ⟨pre, post, hsplit⟩ := List.append_of_mem hc
    have := (CirclePacking.PlacedOk_split s.padding added s.circles pre c post hok hsplit).1
    rw [this]
    rfl

/-- C20: with `maxAttempts = 100`, a call of `addNewCircles` entered with
`finished == false` and `circles.length < maxCircles` makes exactly 100 attempts:
`results` lists what `createCircle` returned at each of them, every attempt
being made on the list extended by the circles placed before it in the same
call.  The call appends exactly the circles that the attempts returned, at most
100, changes nothing else but `finished`, and ends with `finished == true`
exactly when `circles.length >= maxCircles` at the end or all of its 100
attempts failed, the failures of earlier calls playing no part.  A call entered
with `finished == true` or `circles.length >= maxCircles` changes nothing. -/
theorem C20_addNewCircles_call [Rounding] (s : CirclePacking) (rand : ℕ → ℚ)
    (hM : s.maxAttempts = 100) :
    (s.finished = false → s.circles.length < s.maxCircles →
      ∃ results : List (Option Circle), results.length = 100 ∧
        (∀ (pre : List (Option Circle)) (r : Option Circle) (post : List (Option Circle)),
          results = pre ++ r :: post →
          r = CirclePacking.createCircle
            { s with circles := s.circles ++ pre.reduceOption } (rand pre.length)) ∧
        (s.addNewCircles rand).circles = s.circles ++ results.reduceOption ∧
        results.reduceOption.length ≤ 100 ∧
        ((s.addNewCircles rand).finished = true ↔
          (s.maxCircles ≤ (s.addNewCircles rand).circles.length ∨
            ∀ r ∈ results, r = none)) ∧
        s.addNewCircles rand
          = { s with circles := s.circles ++ results.reduceOption
                     finished := (s.addNewCircles rand).finished }) ∧
    ((s.finished = true ∨ s.maxCircles ≤ s.circles.length) → s.addNewCircles rand = s) := by
  constructor
  · intro hfin hlen
    obtain ⟨results, h1, h2, h3, h4, h5⟩ :=
      CirclePacking.addNewCirclesLoop_results rand 100 0 0 s (by omega)
    have hall := (CirclePacking.addNewCirclesLoop_attempts rand 100 0 0 s (by omega)).2
    simp only [Nat.zero_add] at h2 h4 h5 hall
    have hcirc : (s.addNewCircles rand).circles = s.circles ++ results.reduceOption := by
      unfold CirclePacking.addNewCircles
      simp only [hfin, hlen, Bool.not_false, Bool.true_and, decide_True, if_true]
      split <;> simp only [h3]
    refine ⟨results, h1, h2, hcirc, ?_, ?_, ?_⟩
    · have := List.reduceOption_length_le results
      omega
    · rw [CirclePacking.addNewCircles_finished_iff s rand hfin hlen hM, ← hall, h5]
    · unfold CirclePacking.addNewCircles
      simp only [hfin, hlen, Bool.not_false, Bool.true_and, decide_True, if_true]
      split <;> simp only [h3]
  · intro h
    unfold CirclePacking.addNewCircles
    rcases h with h | h
    · simp [h]
    · have : ¬ s.circles.length < s.maxCircles := by omega
      simp [this]

/-- C20 at a concrete input: the first call on `Example.threePoints 5000`. -/
theorem C20_addNewCircles_call_witness :
    (Example.threePoints 5000).maxAttempts = 100 ∧
    ((Example.threePoints 5000).finished = true ∨
        (Example.threePoints 5000).maxCircles ≤ (Example.threePoints 5000).circles.length →
      (Example.threePoints 5000).addNewCircles Example.firstCall
        = Example.threePoints 5000) ∧
    ∃ results : List (Option Circle), results.length = 100 ∧
      ((Example.threePoints 5000).addNewCircles Example.firstCall).circles
        = (Example.threePoints 5000).circles ++ results.reduceOption :=
  ⟨rfl, (C20_addNewCircles_call (Example.threePoints 5000) Example.firstCall rfl).2,
    ((C20_addNewCircles_call (Example.threePoints 5000) Example.firstCall rfl).1 rfl
      (by decide)).imp fun _ h => ⟨h.1, h.2.2.1⟩⟩

end TextCirclePacking
